import Mathlib

/-!
Shallow embedding of the Hardware Abstraction & Telemetry Subsystem of the
IoT-Smart-Home backend (Python sources under `backend/`), together with
theorems settling the frozen claims about it.

Conventions of the embedding:
* Python `int` fields become `ℤ` (digit strings parse through `ℕ`);
  Python `float` fields become `ℚ` (the claims under scrutiny depend only on
  comparisons, clamping and decimal rounding, which `ℚ` models exactly).
* `datetime` timestamps are opaque to every claim; they are modelled as `ℕ`
  and functions that read the wall clock take the time as a parameter
  (or use `0` where no claim can observe it).
* Fallible Python code (raising / `try ... except`) is modelled with
  `Option` / `Except`.
* `random.uniform` / `random.random` draws are passed in explicitly, so a
  stateful method becomes a pure function of the pre-state and the draws.
-/

namespace SmartHome

/-! ## Domain entities (`backend/domain/entities.py`) -/

/-- `DeviceType` enumeration from `entities.py`. -/
inductive DeviceType where
  | night_led
  | garage_door
  | motion_sensor
  | rain_sensor
  | clothes_servo
  | water_pump
  | flame_sensor
  | smoke_sensor
  | dht_sensor
deriving DecidableEq, Repr

/-- `DeviceState` enumeration from `entities.py`. -/
inductive DeviceState where
  | on
  | off
  | «open»
  | closed
  | detected
  | not_detected
deriving DecidableEq, Repr

/-- `RuntimeMode` enumeration from `entities.py`. -/
inductive RuntimeMode where
  | auto
  | arduino
  | simulation
deriving DecidableEq, Repr

/-- `DeviceCommand` dataclass from `entities.py`. -/
structure DeviceCommand where
  device_type : DeviceType
  state : DeviceState
  timestamp : Nat
  manual_override : Bool
deriving DecidableEq, Repr

/-- Rendering of a `DeviceType` the way Python's f-string renders the enum
member (only the identity of the message matters to the claims). -/
def DeviceType.py_name : DeviceType → String
  | .night_led => "DeviceType.NIGHT_LED"
  | .garage_door => "DeviceType.GARAGE_DOOR"
  | .motion_sensor => "DeviceType.MOTION_SENSOR"
  | .rain_sensor => "DeviceType.RAIN_SENSOR"
  | .clothes_servo => "DeviceType.CLOTHES_SERVO"
  | .water_pump => "DeviceType.WATER_PUMP"
  | .flame_sensor => "DeviceType.FLAME_SENSOR"
  | .smoke_sensor => "DeviceType.SMOKE_SENSOR"
  | .dht_sensor => "DeviceType.DHT_SENSOR"

/-- `DeviceCommand.to_arduino_format`: the dict `command_map` keyed by the
four actuator types, each entry pairing the protocol letter with the
`is_active` boolean computed from the command's state; a device type not in
the dict raises `ValueError` (modelled as `Except.error`). -/
def DeviceCommand.to_arduino_format (c : DeviceCommand) : Except String String :=
  let command_map : DeviceType → Option (String × Bool) := fun t =>
    match t with
    | .night_led => some ("L", c.state = DeviceState.on)
    | .garage_door => some ("G", c.state = DeviceState.«open»)
    | .water_pump => some ("P", c.state = DeviceState.on)
    | .clothes_servo => some ("C", c.state = DeviceState.«open»)
    | _ => none
  match command_map c.device_type with
  | none => Except.error ("Device " ++ c.device_type.py_name ++ " does not accept commands")
  | some (letter, is_active) => Except.ok (letter ++ (if is_active then "1" else "0"))

/-- `TelemetrySnapshot` dataclass from `entities.py` (fields only; the
`__post_init__` validation lives in `TelemetrySnapshot.mk_validated`). -/
structure TelemetrySnapshot where
  timestamp : Nat
  ldr_value : ℤ
  garage_distance : ℤ
  motion_detected : Bool
  rain_detected : Bool
  water_level : ℤ
  soil_moisture : ℤ
  pump_active : Bool
  flame_detected : Bool
  smoke_level : ℤ
  temperature : ℚ
  humidity : ℚ
  auto_mode : Bool
  runtime_mode : RuntimeMode
deriving DecidableEq, Repr

/-- The range checks performed by `TelemetrySnapshot.__post_init__`. -/
def TelemetrySnapshot.post_init_ok (ldr_value : ℤ) (temperature humidity : ℚ) : Prop :=
  (0 ≤ ldr_value ∧ ldr_value ≤ 1023) ∧ (0 ≤ humidity ∧ humidity ≤ 100) ∧
    ¬(temperature < -40 ∨ temperature > 80)

instance (ldr_value : ℤ) (temperature humidity : ℚ) :
    Decidable (TelemetrySnapshot.post_init_ok ldr_value temperature humidity) := by
  unfold TelemetrySnapshot.post_init_ok
  infer_instance

/-- Constructing a `TelemetrySnapshot` in Python runs `__post_init__`, which
raises `ValueError` when the LDR value, humidity or temperature is out of
range; `none` models the raise. -/
def TelemetrySnapshot.mk_validated (timestamp : Nat) (ldr_value garage_distance : ℤ)
    (motion_detected rain_detected : Bool) (water_level soil_moisture : ℤ)
    (pump_active flame_detected : Bool) (smoke_level : ℤ) (temperature humidity : ℚ)
    (auto_mode : Bool) (runtime_mode : RuntimeMode) : Option TelemetrySnapshot :=
  if TelemetrySnapshot.post_init_ok ldr_value temperature humidity then
    some ⟨timestamp, ldr_value, garage_distance, motion_detected, rain_detected,
      water_level, soil_moisture, pump_active, flame_detected, smoke_level,
      temperature, humidity, auto_mode, runtime_mode⟩
  else none

/-- `TelemetrySnapshot.evaluate_auto_mode_logic`.  The Python method reads
`datetime.utcnow()` once into `now`; the embedding takes `now` as a
parameter. -/
def TelemetrySnapshot.evaluate_auto_mode_logic (s : TelemetrySnapshot) (now : Nat) :
    List DeviceCommand :=
  if !s.auto_mode then []
  else
    let led_state := if s.ldr_value > 500 then DeviceState.on else DeviceState.off
    let garage_state :=
      if 5 ≤ s.garage_distance ∧ s.garage_distance ≤ 15 then DeviceState.«open»
      else DeviceState.closed
    let clothes_state := if s.rain_detected then DeviceState.closed else DeviceState.«open»
    let pump_state :=
      if 1 ≤ s.water_level ∧ s.water_level ≤ 5 ∧ s.soil_moisture > 900 then DeviceState.on
      else DeviceState.off
    [ ⟨DeviceType.night_led, led_state, now, false⟩,
      ⟨DeviceType.garage_door, garage_state, now, false⟩,
      ⟨DeviceType.clothes_servo, clothes_state, now, false⟩,
      ⟨DeviceType.water_pump, pump_state, now, false⟩ ]

/-- `TelemetrySnapshot.has_emergency`. -/
def TelemetrySnapshot.has_emergency (s : TelemetrySnapshot) : Bool :=
  s.flame_detected || s.smoke_level > 150

/-- `AutoModeCommand` dataclass from `entities.py`. -/
structure AutoModeCommand where
  enabled : Bool
  timestamp : Nat
deriving DecidableEq, Repr

/-- `AutoModeCommand.to_arduino_format`. -/
def AutoModeCommand.to_arduino_format (c : AutoModeCommand) : String :=
  "A" ++ (if c.enabled then "1" else "0")

/-! ### Spec-side codec description (for claim C2's refinement comparison).

These two definitions are written from the spec's words ("maps actuator
identifier to a single letter (light→L, barrier→G, pump→P, cover→C)") /
the amended claim, to be compared against `DeviceCommand.to_arduino_format`
above, which is translated from the source. -/

/-- Spec-side letter table: the single protocol letter of each actuator;
`none` for the sensor-only identifiers. -/
def actuator_letter : DeviceType → Option String
  | .night_led => some "L"
  | .garage_door => some "G"
  | .water_pump => some "P"
  | .clothes_servo => some "C"
  | _ => none

/-- Amended-claim-side active state of each actuator: the state whose digit
is `1` (`on` for light and pump, `open` for barrier and cover).  Value on
sensor-only types is irrelevant (they have no letter). -/
def active_state : DeviceType → DeviceState
  | .night_led => DeviceState.on
  | .garage_door => DeviceState.«open»
  | .water_pump => DeviceState.on
  | .clothes_servo => DeviceState.«open»
  | _ => DeviceState.on

/-! ## Serial controller: command sending with retry
(`backend/infrastructure/serial_controller.py`)

`send_command` is decorated with tenacity
`retry(stop=stop_after_attempt(3), wait=wait_exponential(multiplier=1, min=1,
max=10), retry=retry_if_exception_type(SerialException))`; `set_auto_mode`
has no retry decorator and catches `SerialException`, returning `False`.

The serial link is modelled as an oracle `link : ℕ → LinkAttempt` giving
the outcome of the n-th raw write (1-based), and exceptions as values of
`PyExc`.  A result `Except.error e` means the Python call raised. -/

/-- Outcome of one raw serial write. -/
inductive LinkAttempt where
  | ok
  | serialError
deriving DecidableEq, Repr

/-- The two exception kinds that can escape the modelled operations:
`SerialException` (retried by tenacity) and `ValueError` (raised by
`to_arduino_format`, not retried). -/
inductive PyExc where
  | serialExc
  | valueErr
deriving DecidableEq, Repr

/-- tenacity `wait_exponential(multiplier, min, max)` sleep after the n-th
failed attempt (1-based): `max(min, min(multiplier * 2^(n-1), max))`. -/
def wait_exponential (multiplier min_wait max_wait n : Nat) : Nat :=
  max min_wait (min (multiplier * 2 ^ (n - 1)) max_wait)

/-- One execution of the body of `send_command` (attempt number `n`):
if the serial handle is absent/closed, log and return `False`;
otherwise encode (a `ValueError` from `to_arduino_format` propagates),
then write; a failed write raises `SerialException` (the `except` clause
logs and re-raises). -/
def SerialHardwareController.send_command_body (connected : Bool) (cmd : DeviceCommand)
    (link : Nat → LinkAttempt) (n : Nat) : Except PyExc Bool :=
  if !connected then Except.ok false
  else
    match cmd.to_arduino_format with
    | Except.error _ => Except.error PyExc.valueErr
    | Except.ok _ =>
      match link n with
      | LinkAttempt.ok => Except.ok true
      | LinkAttempt.serialError => Except.error PyExc.serialExc

/-- The tenacity retry loop around a body: run attempt `n`; a
`SerialException` is retried (after the exponential sleep) while attempts
remain, and once `stop_after_attempt` is hit the exception escapes; any
other exception escapes immediately.  Returns the final result, the number
of attempts made, and the list of sleeps performed. -/
def tenacity_retry (body : Nat → Except PyExc Bool) (n : Nat) :
    Nat → Except PyExc Bool × Nat × List Nat
  | 0 => (Except.error PyExc.serialExc, 0, [])
  | remaining + 1 =>
    match body n with
    | Except.ok b => (Except.ok b, 1, [])
    | Except.error PyExc.valueErr => (Except.error PyExc.valueErr, 1, [])
    | Except.error PyExc.serialExc =>
      if remaining = 0 then (Except.error PyExc.serialExc, 1, [])
      else
        let rest := tenacity_retry body (n + 1) remaining
        (rest.1, rest.2.1 + 1, wait_exponential 1 1 10 n :: rest.2.2)

/-- `SerialHardwareController.send_command` with its retry decorator
(`stop_after_attempt(3)`). -/
def SerialHardwareController.send_command (connected : Bool) (cmd : DeviceCommand)
    (link : Nat → LinkAttempt) : Except PyExc Bool × Nat × List Nat :=
  tenacity_retry (SerialHardwareController.send_command_body connected cmd link) 1 3

/-- `SerialHardwareController.set_auto_mode`: no retry decorator; a
`SerialException` during the single write is caught and turned into
`False`.  Returns the result and the number of write attempts made. -/
def SerialHardwareController.set_auto_mode (connected : Bool) (_cmd : AutoModeCommand)
    (link : Nat → LinkAttempt) : Bool × Nat :=
  if !connected then (false, 0)
  else
    match link 1 with
    | LinkAttempt.ok => (true, 1)
    | LinkAttempt.serialError => (false, 1)

/-! ## Serial controller: telemetry line parser
(`SerialHardwareController._parse_telemetry`)

The Python method applies eleven `re.search` patterns to the raw line and
returns `None` unless all of them match; the conversions `float(...)` and
the `TelemetrySnapshot` constructor can raise `ValueError`, which the
`except` clause turns into `None`.

Each pattern is a literal label followed by `\s*`-separated literal /
character-class pieces.  In every pattern each greedy class (`\s*`, `\d+`,
`[\d.]+`) is disjoint from the first character of whatever follows it, so
Python's backtracking regex engine agrees with the deterministic
greedy matchers below at every input; `re.search` tries the pattern at each
start position from the left and `find_match` does the same. -/

/-- Python regex `\s` character class. -/
def isSpaceChar (c : Char) : Bool :=
  c == ' ' || c == '\t' || c == '\n' || c == '\r' || c == '\x0b' || c == '\x0c'

/-- Character class `[\d.]`. -/
def isDigitDot (c : Char) : Bool :=
  c.isDigit || c == '.'

/-- Match a literal at the head of the input, returning the remainder. -/
def stripLit : List Char → List Char → Option (List Char)
  | [], s => some s
  | _ :: _, [] => none
  | c :: l, x :: s => if x = c then stripLit l s else none

/-- `re.search`: try the matcher at each start position, leftmost first
(including the empty suffix at the end, as `re.search` does). -/
def find_match (m : List Char → Option (List Char)) : List Char → Option (List Char)
  | [] => m []
  | c :: cs =>
    match m (c :: cs) with
    | some g => some g
    | none => find_match m cs

/-- Matcher for `<label>\s*(\d+)`: the group is the greedy digit run. -/
def matchLabelNat (label : List Char) (s : List Char) : Option (List Char) :=
  match stripLit label s with
  | none => none
  | some s1 =>
    let s2 := s1.dropWhile isSpaceChar
    let d := s2.takeWhile Char.isDigit
    if d = [] then none else some d

/-- Matcher for `<label>\s*(\d+)\s*<unit>`. -/
def matchLabelNatUnit (label unit : List Char) (s : List Char) : Option (List Char) :=
  match stripLit label s with
  | none => none
  | some s1 =>
    let s2 := s1.dropWhile isSpaceChar
    let d := s2.takeWhile Char.isDigit
    if d = [] then none
    else
      match stripLit unit ((s2.dropWhile Char.isDigit).dropWhile isSpaceChar) with
      | none => none
      | some _ => some d

/-- Matcher for an alternation of literals `(a1|a2|...)`, tried left to
right as the regex engine does; the group is the literal that matched. -/
def matchAlts (alts : List (List Char)) (s : List Char) : Option (List Char) :=
  match alts with
  | [] => none
  | a :: rest =>
    match stripLit a s with
    | some _ => some a
    | none => matchAlts rest s

/-- Matcher for `<label>(a1|a2)` (literal label, no space skipping). -/
def matchLabelAlts (label : List Char) (alts : List (List Char)) (s : List Char) :
    Option (List Char) :=
  match stripLit label s with
  | none => none
  | some s1 => matchAlts alts s1

/-- Matcher for `<label>\s*(a1|a2)`. -/
def matchLabelSpAlts (label : List Char) (alts : List (List Char)) (s : List Char) :
    Option (List Char) :=
  match stripLit label s with
  | none => none
  | some s1 => matchAlts alts (s1.dropWhile isSpaceChar)

/-- Matcher for `<label>\s*([\d.]+)\s*<unit>`. -/
def matchLabelFloatUnit (label unit : List Char) (s : List Char) : Option (List Char) :=
  match stripLit label s with
  | none => none
  | some s1 =>
    let s2 := s1.dropWhile isSpaceChar
    let d := s2.takeWhile isDigitDot
    if d = [] then none
    else
      match stripLit unit ((s2.dropWhile isDigitDot).dropWhile isSpaceChar) with
      | none => none
      | some _ => some d

/-- Matcher for `<label>\s*([\d.]+)<unit>` (no space before the unit). -/
def matchLabelFloatTight (label unit : List Char) (s : List Char) : Option (List Char) :=
  match stripLit label s with
  | none => none
  | some s1 =>
    let s2 := s1.dropWhile isSpaceChar
    let d := s2.takeWhile isDigitDot
    if d = [] then none
    else
      match stripLit unit (s2.dropWhile isDigitDot) with
      | none => none
      | some _ => some d

/-- `re.search(r'LDR:\s*(\d+)', line)`, reduced to its group. -/
def searchLDR (line : List Char) : Option (List Char) :=
  find_match (matchLabelNat "LDR:".toList) line

/-- `re.search(r'Garage Dist:\s*(\d+)\s*cm', line)`. -/
def searchGarage (line : List Char) : Option (List Char) :=
  find_match (matchLabelNatUnit "Garage Dist:".toList "cm".toList) line

/-- `re.search(r'(Motion!|No Motion)', line)`. -/
def searchMotion (line : List Char) : Option (List Char) :=
  find_match (matchAlts ["Motion!".toList, "No Motion".toList]) line

/-- `re.search(r'(Rain!|No Rain)', line)`. -/
def searchRain (line : List Char) : Option (List Char) :=
  find_match (matchAlts ["Rain!".toList, "No Rain".toList]) line

/-- `re.search(r'Water Lvl:\s*(\d+)\s*cm', line)`. -/
def searchWater (line : List Char) : Option (List Char) :=
  find_match (matchLabelNatUnit "Water Lvl:".toList "cm".toList) line

/-- `re.search(r'Soil:\s*(\d+)', line)`. -/
def searchSoil (line : List Char) : Option (List Char) :=
  find_match (matchLabelNat "Soil:".toList) line

/-- `re.search(r'Pump (ON|OFF)', line)`. -/
def searchPump (line : List Char) : Option (List Char) :=
  find_match (matchLabelAlts "Pump ".toList ["ON".toList, "OFF".toList]) line

/-- `re.search(r'Flame:\s*(YES|NO)', line)`. -/
def searchFlame (line : List Char) : Option (List Char) :=
  find_match (matchLabelSpAlts "Flame:".toList ["YES".toList, "NO".toList]) line

/-- `re.search(r'Smoke:\s*(\d+)', line)`. -/
def searchSmoke (line : List Char) : Option (List Char) :=
  find_match (matchLabelNat "Smoke:".toList) line

/-- `re.search(r'Temp:\s*([\d.]+)\s*C', line)`. -/
def searchTemp (line : List Char) : Option (List Char) :=
  find_match (matchLabelFloatUnit "Temp:".toList "C".toList) line

/-- `re.search(r'Hum:\s*([\d.]+)%', line)`. -/
def searchHum (line : List Char) : Option (List Char) :=
  find_match (matchLabelFloatTight "Hum:".toList "%".toList) line

/-- Python `int` of a nonempty digit string (never raises for `\d+`). -/
def natOfDigits (d : List Char) : Nat :=
  d.foldl (fun a c => 10 * a + (c.toNat - 48)) 0

/-- Python `int(...)` of a regex `(\d+)` group, as used by the parser. -/
def pyIntOfDigits (d : List Char) : ℤ :=
  (natOfDigits d : ℤ)

/-- Python `float(...)` of a regex `([\d.]+)` group: it raises `ValueError`
(here `none`) unless the string has at most one dot and at least one digit;
otherwise the value is the string's exact decimal value (`I.F` is
`(I * 10^k + F) / 10^k`, i.e. the fold over the digits with the dot
removed, divided by `10^length-of-F`), built with `mkRat` so that it is
exact in `ℚ`.  (CPython parses to the nearest binary double; the claims in
scope depend only on which strings convert, not on float rounding.) -/
def pyFloatOfGroup (d : List Char) : Option ℚ :=
  if d.count '.' ≤ 1 ∧ d.any Char.isDigit then
    let ip := d.takeWhile Char.isDigit
    let rest := d.dropWhile Char.isDigit
    match rest with
    | [] => some (mkRat (natOfDigits ip) 1)
    | _ :: frac => some (mkRat (natOfDigits (ip ++ frac)) (10 ^ frac.length))
  else none

/-- `SerialHardwareController._parse_telemetry`.  All eleven searches are
required to succeed (`if not all([...]): return None`); the boolean fields
compare the matched group against the positive literal; `auto_mode` is
hard-coded to `True`; any `ValueError` from `float(...)` or from the
`TelemetrySnapshot` constructor yields `None`. -/
def SerialHardwareController.parse_telemetry (line : List Char) : Option TelemetrySnapshot := do
  let ldr ← searchLDR line
  let gar ← searchGarage line
  let mot ← searchMotion line
  let rain ← searchRain line
  let wat ← searchWater line
  let soil ← searchSoil line
  let pump ← searchPump line
  let flame ← searchFlame line
  let smoke ← searchSmoke line
  let temp ← searchTemp line
  let hum ← searchHum line
  let temp_v ← pyFloatOfGroup temp
  let hum_v ← pyFloatOfGroup hum
  TelemetrySnapshot.mk_validated 0 (pyIntOfDigits ldr) (pyIntOfDigits gar)
    (mot = "Motion!".toList) (rain = "Rain!".toList) (pyIntOfDigits wat)
    (pyIntOfDigits soil) (pump = "ON".toList) (flame = "YES".toList)
    (pyIntOfDigits smoke) temp_v hum_v true RuntimeMode.arduino

/-- All eleven telemetry fields are present in the line and parse as their
expected types (the two float groups convert without a `ValueError`). -/
def all_fields_present (line : List Char) : Bool :=
  (searchLDR line).isSome && (searchGarage line).isSome && (searchMotion line).isSome &&
  (searchRain line).isSome && (searchWater line).isSome && (searchSoil line).isSome &&
  (searchPump line).isSome && (searchFlame line).isSome && (searchSmoke line).isSome &&
  ((searchTemp line).bind pyFloatOfGroup).isSome &&
  ((searchHum line).bind pyFloatOfGroup).isSome

/-! ## Simulated environment and controller
(`backend/infrastructure/simulation_controller.py`) -/

/-- `SimulatedEnvironment.__init__` state. -/
structure SimulatedEnvironment where
  ambient_light : ℚ
  garage_distance : ℚ
  has_motion : Bool
  is_raining : Bool
  water_level : ℚ
  soil_moisture : ℚ
  flame_present : Bool
  smoke_level : ℚ
  temperature : ℚ
  humidity : ℚ
  night_led_on : Bool
  garage_open : Bool
  clothes_servo_open : Bool
  pump_on : Bool
  auto_mode : Bool
deriving DecidableEq, Repr

/-- The initial environment built by `SimulatedEnvironment.__init__`. -/
def SimulatedEnvironment.init : SimulatedEnvironment where
  ambient_light := 300
  garage_distance := 50
  has_motion := false
  is_raining := false
  water_level := 3
  soil_moisture := 600
  flame_present := false
  smoke_level := 50
  temperature := 24
  humidity := 45
  night_led_on := false
  garage_open := false
  clothes_servo_open := true
  pump_on := false
  auto_mode := true

/-- The random draws consumed by one `SimulatedEnvironment.update` call:
`uniform(-20, 20)`, `uniform(-2, 2)`, three `random()` draws, and
`uniform(-0.5, 0.5)` / `uniform(-1, 1)`.  The update clamps every
continuous quantity, so none of the claims needs range hypotheses on the
draws. -/
structure Draws where
  light_noise : ℚ
  garage_noise : ℚ
  motion_rand : ℚ
  rain_rand : ℚ
  fire_rand : ℚ
  temp_noise : ℚ
  hum_noise : ℚ

/-- `SimulatedEnvironment.update(delta_time)`. -/
def SimulatedEnvironment.update (env : SimulatedEnvironment) (delta_time : ℚ) (d : Draws) :
    SimulatedEnvironment :=
  let ambient_light := max 0 (min 1023 (env.ambient_light + d.light_noise))
  let garage_distance := max 1 (min 100 (env.garage_distance + d.garage_noise))
  let has_motion := decide (d.motion_rand < 0.05)
  let is_raining := if d.rain_rand < 0.02 then !env.is_raining else env.is_raining
  let water_level :=
    max 0 (min 20 (if env.pump_on then env.water_level - 0.1 * delta_time
                   else env.water_level + 0.05 * delta_time))
  let soil_moisture :=
    max 0 (min 1023 (if env.pump_on then env.soil_moisture - 10 * delta_time
                     else env.soil_moisture + 5 * delta_time))
  let flame_present := decide (d.fire_rand < 0.001)
  let smoke_level :=
    if d.fire_rand < 0.001 then (200 : ℚ) else max 20 (env.smoke_level - 5 * delta_time)
  let temperature := max (-10) (min 40 (env.temperature + d.temp_noise))
  let humidity := max 0 (min 100 (env.humidity + d.hum_noise))
  { env with
    ambient_light := ambient_light
    garage_distance := garage_distance
    has_motion := has_motion
    is_raining := is_raining
    water_level := water_level
    soil_moisture := soil_moisture
    flame_present := flame_present
    smoke_level := smoke_level
    temperature := temperature
    humidity := humidity }

/-- `SimulatedEnvironment.apply_auto_mode_logic`. -/
def SimulatedEnvironment.apply_auto_mode_logic (env : SimulatedEnvironment) :
    SimulatedEnvironment :=
  if !env.auto_mode then env
  else
    { env with
      night_led_on := decide (env.ambient_light > 500)
      garage_open := decide (5 ≤ env.garage_distance ∧ env.garage_distance ≤ 15)
      clothes_servo_open := !env.is_raining
      pump_on := decide (1 ≤ env.water_level ∧ env.water_level ≤ 5 ∧ env.soil_moisture > 900) }

/-- `SimulatedHardwareController.send_command`: commands without the
override flag are rejected while auto mode is on; otherwise the if/elif
chain updates the actuator matching the device type (sensor types fall
through unchanged) and the method returns `True`. -/
def SimulatedHardwareController.send_command (env : SimulatedEnvironment)
    (cmd : DeviceCommand) : Bool × SimulatedEnvironment :=
  if env.auto_mode && !cmd.manual_override then (false, env)
  else if cmd.device_type = DeviceType.night_led then
    (true, { env with night_led_on := decide (cmd.state = DeviceState.on) })
  else if cmd.device_type = DeviceType.garage_door then
    (true, { env with garage_open := decide (cmd.state = DeviceState.«open») })
  else if cmd.device_type = DeviceType.clothes_servo then
    (true, { env with clothes_servo_open := decide (cmd.state = DeviceState.«open») })
  else if cmd.device_type = DeviceType.water_pump then
    (true, { env with pump_on := decide (cmd.state = DeviceState.on) })
  else (true, env)

/-- `SimulatedHardwareController.set_auto_mode`: always succeeds. -/
def SimulatedHardwareController.set_auto_mode (env : SimulatedEnvironment)
    (cmd : AutoModeCommand) : Bool × SimulatedEnvironment :=
  (true, { env with auto_mode := cmd.enabled })

/-- Python `int(...)` on a float: truncation toward zero. -/
def pyTrunc (q : ℚ) : ℤ :=
  if 0 ≤ q then ⌊q⌋ else -⌊-q⌋

/-- Python `round(x, 1)`.  Python uses round-half-even on the scaled value;
`round` in Mathlib is round-half-up.  The two differ only on exact ties,
and no claim in scope observes a tie, while the range facts proved below
hold for any round-to-nearest. -/
def pyRound1 (q : ℚ) : ℚ :=
  (round (q * 10) : ℤ) / 10

/-- `SimulatedHardwareController.get_telemetry`: builds a
`TelemetrySnapshot` from the environment; a `ValueError` from the
constructor is caught and turned into `None`. -/
def SimulatedHardwareController.get_telemetry (env : SimulatedEnvironment) :
    Option TelemetrySnapshot :=
  TelemetrySnapshot.mk_validated 0 (pyTrunc env.ambient_light) (pyTrunc env.garage_distance)
    env.has_motion env.is_raining (pyTrunc env.water_level) (pyTrunc env.soil_moisture)
    env.pump_on env.flame_present (pyTrunc env.smoke_level)
    (pyRound1 env.temperature) (pyRound1 env.humidity) env.auto_mode RuntimeMode.simulation

/-- Environment states reachable from the initial state by any interleaving
of simulation ticks (`update` with a non-negative wall-clock delta followed
by the auto-mode logic in the loop, both also admitted separately),
`send_command` mutations and `set_auto_mode` toggles. -/
inductive SimReachable : SimulatedEnvironment → Prop where
  | init : SimReachable SimulatedEnvironment.init
  | update {env : SimulatedEnvironment} (dt : ℚ) (d : Draws) :
      SimReachable env → 0 ≤ dt → SimReachable (env.update dt d)
  | auto_logic {env : SimulatedEnvironment} :
      SimReachable env → SimReachable env.apply_auto_mode_logic
  | send {env : SimulatedEnvironment} (cmd : DeviceCommand) :
      SimReachable env → SimReachable (SimulatedHardwareController.send_command env cmd).2
  | set_auto {env : SimulatedEnvironment} (cmd : AutoModeCommand) :
      SimReachable env → SimReachable (SimulatedHardwareController.set_auto_mode env cmd).2

/-! ## Hardware controller factory
(`backend/infrastructure/hardware_factory.py`)

`SerialHardwareController.initialize` raises `RuntimeError` both when no
port is detected and when opening the port fails (the `SerialException` is
wrapped); those are the only exceptions it raises, and the AUTO branch of
the factory catches exactly `RuntimeError`.  The physical initialization
outcome is modelled as an optional `InitError`. -/

/-- The two `RuntimeError` causes of `SerialHardwareController.initialize`:
no Arduino detected, or the serial port failed to open. -/
inductive InitError where
  | deviceNotFound
  | connectionFailed
deriving DecidableEq, Repr

/-- The kind of controller the factory hands back. -/
inductive ControllerKind where
  | physical
  | simulated
deriving DecidableEq, Repr

/-- `runtime_mode` property of each controller class: `ARDUINO` for
`SerialHardwareController`, `SIMULATION` for `SimulatedHardwareController`. -/
def ControllerKind.runtime_mode : ControllerKind → RuntimeMode
  | .physical => RuntimeMode.arduino
  | .simulated => RuntimeMode.simulation

/-- `HardwareControllerFactory.create`: ARDUINO mode propagates any
initialization error; SIMULATION mode cannot fail; AUTO mode tries the
physical controller and falls back to the simulated one on `RuntimeError`. -/
def HardwareControllerFactory.create (mode : RuntimeMode)
    (serial_init : Option InitError) : Except InitError ControllerKind :=
  match mode with
  | RuntimeMode.arduino =>
    match serial_init with
    | none => Except.ok ControllerKind.physical
    | some e => Except.error e
  | RuntimeMode.simulation => Except.ok ControllerKind.simulated
  | RuntimeMode.auto =>
    match serial_init with
    | none => Except.ok ControllerKind.physical
    | some _ => Except.ok ControllerKind.simulated

/-! ## Well-formed telemetry lines and their field substrings (for C9)

A well-formed telemetry line, per the format documented in
`_parse_telemetry`, is the eleven field substrings joined with `" | "`.
Each field is modelled with its value part left symbolic: an arbitrary
nonempty digit string for the integer fields and an arbitrary nonempty
`[\d.]` string for the two float fields, so the order-independence theorem
quantifies over every well-formed line of the documented shape. -/

/-- One field substring of a telemetry line. -/
inductive TField where
  | ldr (d : List Char)
  | garage (d : List Char)
  | motion (b : Bool)
  | rain (b : Bool)
  | water (d : List Char)
  | soil (d : List Char)
  | pump (b : Bool)
  | flame (b : Bool)
  | smoke (d : List Char)
  | temp (f : List Char)
  | hum (f : List Char)
deriving DecidableEq, Repr

/-- The separator between fields on the wire. -/
def fieldSep : List Char := " | ".toList

/-- The text of one field. -/
def TField.render : TField → List Char
  | .ldr d => "LDR: ".toList ++ d
  | .garage d => "Garage Dist: ".toList ++ d ++ " cm".toList
  | .motion true => "Motion!".toList
  | .motion false => "No Motion".toList
  | .rain true => "Rain!".toList
  | .rain false => "No Rain".toList
  | .water d => "Water Lvl: ".toList ++ d ++ " cm".toList
  | .soil d => "Soil: ".toList ++ d
  | .pump true => "Pump ON".toList
  | .pump false => "Pump OFF".toList
  | .flame true => "Flame: YES".toList
  | .flame false => "Flame: NO".toList
  | .smoke d => "Smoke: ".toList ++ d
  | .temp f => "Temp: ".toList ++ f ++ " C".toList
  | .hum f => "Hum: ".toList ++ f ++ "%".toList

/-- Well-formedness of a field: its value part is a nonempty run of the
character class the corresponding regex group accepts. -/
def TField.wf : TField → Prop
  | .ldr d => d ≠ [] ∧ ∀ c ∈ d, c.isDigit
  | .garage d => d ≠ [] ∧ ∀ c ∈ d, c.isDigit
  | .water d => d ≠ [] ∧ ∀ c ∈ d, c.isDigit
  | .soil d => d ≠ [] ∧ ∀ c ∈ d, c.isDigit
  | .smoke d => d ≠ [] ∧ ∀ c ∈ d, c.isDigit
  | .temp f => f ≠ [] ∧ ∀ c ∈ f, isDigitDot c
  | .hum f => f ≠ [] ∧ ∀ c ∈ f, isDigitDot c
  | .motion _ => True
  | .rain _ => True
  | .pump _ => True
  | .flame _ => True

/-- Join a nonempty list of fields with the separator (a singleton list is
just the field itself; the empty list is the empty line). -/
def renderLine : List TField → List Char
  | [] => []
  | [f] => f.render
  | f :: g :: fs => f.render ++ fieldSep ++ renderLine (g :: fs)

/-- Join where every field is followed by a separator (the shape of the
part of a line strictly before some later field). -/
def renderJoin (fs : List TField) : List Char :=
  fs.foldr (fun f acc => f.render ++ fieldSep ++ acc) []

/-- The literal chunks of a field's text (everything but its value run);
used to discharge label-occurrence side conditions by decision. -/
def TField.litChunks : TField → List (List Char)
  | .ldr _ => ["LDR: ".toList]
  | .garage _ => ["Garage Dist: ".toList, " cm".toList]
  | .motion _ => ["Motion!".toList, "No Motion".toList]
  | .rain _ => ["Rain!".toList, "No Rain".toList]
  | .water _ => ["Water Lvl: ".toList, " cm".toList]
  | .soil _ => ["Soil: ".toList]
  | .pump _ => ["Pump ON".toList, "Pump OFF".toList]
  | .flame _ => ["Flame: YES".toList, "Flame: NO".toList]
  | .smoke _ => ["Smoke: ".toList]
  | .temp _ => ["Temp: ".toList, " C".toList]
  | .hum _ => ["Hum: ".toList, "%".toList]

instance (f : TField) : Decidable f.wf := by
  cases f <;> (unfold TField.wf; infer_instance)

/-- The canonical (documented) ordering of the eleven fields. -/
def canonicalFields (d1 d2 : List Char) (b1 b2 : Bool) (d3 d4 : List Char) (b3 b4 : Bool)
    (d5 f1 f2 : List Char) : List TField :=
  [TField.ldr d1, TField.garage d2, TField.motion b1, TField.rain b2, TField.water d3,
   TField.soil d4, TField.pump b3, TField.flame b4, TField.smoke d5, TField.temp f1,
   TField.hum f2]

/-- The sensor-only device identifiers: the five `DeviceType` members that
never receive commands (no entry in `command_map`, no actuator state in the
simulated environment). -/
def DeviceType.sensor_only (t : DeviceType) : Prop :=
  t = DeviceType.motion_sensor ∨ t = DeviceType.rain_sensor ∨ t = DeviceType.flame_sensor ∨
    t = DeviceType.smoke_sensor ∨ t = DeviceType.dht_sensor

instance (t : DeviceType) : Decidable t.sensor_only := by
  unfold DeviceType.sensor_only
  infer_instance

/-! ## Concrete inputs used by the witnesses -/

/-- A complete well-formed telemetry line. -/
def sampleLine : List Char :=
  ("LDR: 600 | Garage Dist: 10 cm | Motion! | No Rain | Water Lvl: 3 cm | " ++
    "Soil: 950 | Pump OFF | Flame: NO | Smoke: 30 | Temp: 24.5 C | Hum: 45.2%").toList

/-- The same line with a field (LDR) removed. -/
def sampleLineMissing : List Char :=
  ("Garage Dist: 10 cm | Motion! | No Rain | Water Lvl: 3 cm | " ++
    "Soil: 950 | Pump OFF | Flame: NO | Smoke: 30 | Temp: 24.5 C | Hum: 45.2%").toList

/-! # Theorems -/

/-! ## C1: the auto-mode control law -/

/-- C1.  `evaluate_auto_mode_logic` returns `[]` when `auto_mode` is false,
and otherwise exactly four commands — night LED, garage door, clothes
servo, water pump, in that order — each with `manual_override = false`, with
the exact thresholds: LED on iff `ldr_value > 500`, garage open iff
`5 ≤ garage_distance ≤ 15`, cover closed iff `rain_detected`, pump on iff
`1 ≤ water_level ≤ 5` and `soil_moisture > 900`. -/
theorem c1_control_law (s : TelemetrySnapshot) (now : Nat) :
    (s.auto_mode = false → s.evaluate_auto_mode_logic now = []) ∧
    (s.auto_mode = true → s.evaluate_auto_mode_logic now =
      [⟨DeviceType.night_led,
          if s.ldr_value > 500 then DeviceState.on else DeviceState.off, now, false⟩,
       ⟨DeviceType.garage_door,
          if 5 ≤ s.garage_distance ∧ s.garage_distance ≤ 15 then DeviceState.«open»
          else DeviceState.closed, now, false⟩,
       ⟨DeviceType.clothes_servo,
          if s.rain_detected then DeviceState.closed else DeviceState.«open», now, false⟩,
       ⟨DeviceType.water_pump,
          if 1 ≤ s.water_level ∧ s.water_level ≤ 5 ∧ s.soil_moisture > 900 then DeviceState.on
          else DeviceState.off, now, false⟩]) := by
  constructor <;> intro h <;>
    simp [TelemetrySnapshot.evaluate_auto_mode_logic, h]

/-- Witness for C1 at the claim's boundary values: `ldr_value = 501` (LED
on), `garage_distance = 5` (open), rain (cover closed), `water_level = 3`,
`soil_moisture = 950` (pump on). -/
theorem c1_control_law_witness :
    TelemetrySnapshot.evaluate_auto_mode_logic
        ⟨0, 501, 5, false, true, 3, 950, false, false, 0, 24, 45, true,
          RuntimeMode.simulation⟩ 0 =
      [⟨DeviceType.night_led, DeviceState.on, 0, false⟩,
       ⟨DeviceType.garage_door, DeviceState.«open», 0, false⟩,
       ⟨DeviceType.clothes_servo, DeviceState.closed, 0, false⟩,
       ⟨DeviceType.water_pump, DeviceState.on, 0, false⟩] := by
  rw [(c1_control_law
    ⟨0, 501, 5, false, true, 3, 950, false, false, 0, 24, 45, true,
      RuntimeMode.simulation⟩ 0).2 rfl]
  decide

/-! ## C2: the command codec -/

/-- Counterexample to C2 as stated.  The claim says state `open` encodes to
digit `1` for every supported actuator letter, but the source computes the
digit per actuator (`is_active` for the night LED is `state == ON`), so the
letter-`L` command with state `open` encodes to `"L0"`, not `"L1"`. -/
theorem c2_codec_counterexample :
    DeviceCommand.to_arduino_format
        ⟨DeviceType.night_led, DeviceState.«open», 0, false⟩ = Except.ok "L0" ∧
      ("L0" : String) ≠ "L1" := by
  constructor
  · rfl
  · decide

/-- C2 (amended).  Encoding maps each actuator to its letter (light→L,
barrier→G, pump→P, cover→C); the digit is `1` iff the commanded state
equals that actuator's active state (`on` for light and pump, `open` for
barrier and cover) and `0` otherwise; a device type with no letter mapping
(the sensor-only identifiers) fails with an error; an `AutoModeCommand`
encodes to `"A1"` / `"A0"`. -/
theorem c2_codec_amended (t : DeviceType) (st : DeviceState) (ts : Nat) (mo : Bool)
    (e : Bool) (ts' : Nat) :
    (DeviceCommand.to_arduino_format ⟨t, st, ts, mo⟩ =
      match actuator_letter t with
      | none => Except.error ("Device " ++ t.py_name ++ " does not accept commands")
      | some l => Except.ok (l ++ (if st = active_state t then "1" else "0"))) ∧
    AutoModeCommand.to_arduino_format ⟨e, ts'⟩ = (if e then "A1" else "A0") := by
  constructor
  · cases t <;> cases st <;> rfl
  · cases e <;> rfl

/-! ## C3: retry behaviour of the two command operations -/

/-- The retry loop makes at most `fuel` attempts. -/
theorem tenacity_retry_attempts_le (body : Nat → Except PyExc Bool) (n fuel : Nat) :
    (tenacity_retry body n fuel).2.1 ≤ fuel := by
  induction fuel generalizing n with
  | zero => simp [tenacity_retry]
  | succ f ih =>
    rw [tenacity_retry]
    rcases body n with e | b
    · cases e
      · by_cases hf : f = 0
        · simp [hf]
        · simp only [hf, if_false]
          have := ih (n + 1)
          omega
      · simp
    · simp

/-- The sleeps of the retry loop are an initial segment of the exponential
schedule starting at attempt `n`. -/
theorem tenacity_retry_waits (body : Nat → Except PyExc Bool) (n fuel : Nat) :
    (tenacity_retry body n fuel).2.2 <+:
      (List.range (fuel - 1)).map (fun i => wait_exponential 1 1 10 (n + i)) := by
  induction fuel generalizing n with
  | zero => simp [tenacity_retry]
  | succ f ih =>
    rw [tenacity_retry]
    rcases body n with e | b
    · cases e
      · by_cases hf : f = 0
        · simp [hf]
        · obtain ⟨f', rfl⟩ : ∃ f', f = f' + 1 := ⟨f - 1, by omega⟩
          simp only [hf, if_false]
          have hrange : List.range (f' + 1 + 1 - 1) = 0 :: (List.range f').map Nat.succ := by
            rw [Nat.add_sub_cancel, List.range_succ_eq_map]
          rw [hrange, List.map_cons, List.map_map]
          have hmaps : (List.range f').map
                ((fun i => wait_exponential 1 1 10 (n + i)) ∘ Nat.succ) =
              (List.range (f' + 1 - 1)).map (fun i => wait_exponential 1 1 10 (n + 1 + i)) := by
            rw [Nat.add_sub_cancel]
            refine List.map_congr_left ?_
            intro i _
            have harg : n + Nat.succ i = n + 1 + i := by omega
            simp [Function.comp, harg]
          rw [hmaps]
          refine List.cons_prefix_cons.mpr ⟨?_, ih (n + 1)⟩
          simp
      · simp
    · simp

/-- If every attempt raises a serial error, the loop's result is the
escaped serial exception. -/
theorem tenacity_retry_all_fail (body : Nat → Except PyExc Bool)
    (h : ∀ n, body n = Except.error PyExc.serialExc) (n fuel : Nat) :
    (tenacity_retry body n fuel).1 = Except.error PyExc.serialExc := by
  induction fuel generalizing n with
  | zero => simp [tenacity_retry]
  | succ f ih =>
    rw [tenacity_retry, h n]
    by_cases hf : f = 0
    · simp [hf]
    · simp only [hf, if_false]
      exact ih (n + 1)

/-- Counterexample to C3 as stated.  `set_auto_mode` does not retry: with a
link that fails once and would succeed on a second write, it returns
`False` after a single attempt.  And `send_command`'s exhausted retries
re-raise the `SerialException` (tenacity's stop) instead of surfacing a
boolean failure. -/
theorem c3_retry_counterexample :
    SerialHardwareController.set_auto_mode true ⟨true, 0⟩
        (fun n => if n = 1 then LinkAttempt.serialError else LinkAttempt.ok) = (false, 1) ∧
    (SerialHardwareController.send_command true
        ⟨DeviceType.night_led, DeviceState.on, 0, false⟩
        (fun _ => LinkAttempt.serialError)).1 = Except.error PyExc.serialExc := by
  constructor
  · rfl
  · rfl

/-- C3 (amended).  `send_command` retries serial failures up to the fixed
ceiling of 3 attempts, sleeping `wait_exponential(1, 1, 10)` between
attempts — a base delay of 1 that doubles and is capped at 10 — and when
all three writes fail with a serial error the exception propagates;
`set_auto_mode` performs at most one write and turns a serial failure into
`success = false`.  Neither operation retries unboundedly. -/
theorem c3_retry_amended (connected : Bool) (cmd : DeviceCommand) (acmd : AutoModeCommand)
    (link : Nat → LinkAttempt) :
    (SerialHardwareController.send_command connected cmd link).2.1 ≤ 3 ∧
    (SerialHardwareController.send_command connected cmd link).2.2 <+:
      [wait_exponential 1 1 10 1, wait_exponential 1 1 10 2] ∧
    wait_exponential 1 1 10 1 = 1 ∧ wait_exponential 1 1 10 2 = 2 ∧
    wait_exponential 1 1 10 9 = 10 ∧
    ((∀ n, link n = LinkAttempt.serialError) → (∃ w, cmd.to_arduino_format = Except.ok w) →
      (SerialHardwareController.send_command true cmd link).1 =
        Except.error PyExc.serialExc) ∧
    (SerialHardwareController.set_auto_mode connected acmd link).2 ≤ 1 ∧
    (link 1 = LinkAttempt.serialError →
      SerialHardwareController.set_auto_mode true acmd link = (false, 1)) := by
  refine ⟨?_, ?_, rfl, rfl, rfl, ?_, ?_, ?_⟩
  · exact tenacity_retry_attempts_le _ 1 3
  · have h := tenacity_retry_waits
      (SerialHardwareController.send_command_body connected cmd link) 1 3
    have hr : (List.range (3 - 1)).map (fun i => wait_exponential 1 1 10 (1 + i)) =
        [wait_exponential 1 1 10 1, wait_exponential 1 1 10 2] := rfl
    rw [hr] at h
    exact h
  · intro hfail hok
    obtain ⟨w, hw⟩ := hok
    have hbody : ∀ n, SerialHardwareController.send_command_body true cmd link n =
        Except.error PyExc.serialExc := by
      intro n
      simp [SerialHardwareController.send_command_body, hw, hfail n]
    exact tenacity_retry_all_fail _ hbody 1 3
  · rcases connected with _ | _
    · simp [SerialHardwareController.set_auto_mode]
    · rcases h1 : link 1 with _ | _ <;>
        simp [SerialHardwareController.set_auto_mode, h1]
  · intro h1
    simp [SerialHardwareController.set_auto_mode, h1]

/-- Witness for C3 (amended): a link whose writes all fail.  The three
attempts of `send_command` exhaust and the serial error escapes; the single
attempt of `set_auto_mode` yields `(false, 1)`. -/
theorem c3_retry_amended_witness :
    (SerialHardwareController.send_command true
        ⟨DeviceType.night_led, DeviceState.on, 0, false⟩
        (fun _ => LinkAttempt.serialError)).1 = Except.error PyExc.serialExc ∧
    SerialHardwareController.set_auto_mode true ⟨false, 0⟩
        (fun _ => LinkAttempt.serialError) = (false, 1) := by
  have h := c3_retry_amended true ⟨DeviceType.night_led, DeviceState.on, 0, false⟩
    ⟨false, 0⟩ (fun _ => LinkAttempt.serialError)
  exact ⟨h.2.2.2.2.2.1 (fun _ => rfl) ⟨"L1", rfl⟩, h.2.2.2.2.2.2.2 rfl⟩

/-! ## C4: decoding is defensive -/

/-- Inversion of one `Option` bind against a `some` result. -/
theorem option_bind_some_inv {α β : Type} {x : Option α} {f : α → Option β} {b : β}
    (h : x >>= f = some b) : ∃ a, x = some a ∧ f a = some b := by
  cases x with
  | none => simp at h
  | some a => exact ⟨a, rfl, h⟩

/-- C4.  If any of the eleven required telemetry fields is absent from the
line or fails to parse as its expected type, `_parse_telemetry` returns
`None` (by construction of the embedding it is a total function — the
Python `except` swallows every `ValueError` — so it never raises and it can
never produce a partially-populated snapshot); conversely a snapshot is
returned only when all eleven fields are present and convert. -/
theorem c4_parse_defensive (line : List Char) :
    (all_fields_present line = false →
      SerialHardwareController.parse_telemetry line = none) ∧
    ((SerialHardwareController.parse_telemetry line).isSome →
      all_fields_present line = true) := by
  have key : (SerialHardwareController.parse_telemetry line).isSome →
      all_fields_present line = true := by
    intro h
    rw [Option.isSome_iff_exists] at h
    obtain ⟨s, hs⟩ := h
    rw [SerialHardwareController.parse_telemetry] at hs
    obtain ⟨g1, h1, hs⟩ := option_bind_some_inv hs
    obtain ⟨g2, h2, hs⟩ := option_bind_some_inv hs
    obtain ⟨g3, h3, hs⟩ := option_bind_some_inv hs
    obtain ⟨g4, h4, hs⟩ := option_bind_some_inv hs
    obtain ⟨g5, h5, hs⟩ := option_bind_some_inv hs
    obtain ⟨g6, h6, hs⟩ := option_bind_some_inv hs
    obtain ⟨g7, h7, hs⟩ := option_bind_some_inv hs
    obtain ⟨g8, h8, hs⟩ := option_bind_some_inv hs
    obtain ⟨g9, h9, hs⟩ := option_bind_some_inv hs
    obtain ⟨g10, h10, hs⟩ := option_bind_some_inv hs
    obtain ⟨g11, h11, hs⟩ := option_bind_some_inv hs
    obtain ⟨v1, hv1, hs⟩ := option_bind_some_inv hs
    obtain ⟨v2, hv2, hs⟩ := option_bind_some_inv hs
    simp [all_fields_present, h1, h2, h3, h4, h5, h6, h7, h8, h9, h10, h11, hv1, hv2]
  refine ⟨?_, key⟩
  intro h
  by_contra hne
  have := key (Option.ne_none_iff_isSome.mp hne)
  rw [h] at this
  exact Bool.false_ne_true this

/-- Witness for C4: the sample line with its LDR field removed decodes to
`None`. -/
theorem c4_parse_defensive_witness :
    SerialHardwareController.parse_telemetry sampleLineMissing = none :=
  (c4_parse_defensive sampleLineMissing).1 (by decide)

/-! ## C7: decoded telemetry always reports auto mode -/

/-- C7.  Every snapshot produced by `_parse_telemetry` has
`auto_mode = true`: the constructor call hard-codes the field (the wire
format does not carry it), regardless of the line's contents and of any
previously commanded auto-mode state. -/
theorem c7_parser_assumes_auto_mode (line : List Char) (s : TelemetrySnapshot)
    (h : SerialHardwareController.parse_telemetry line = some s) :
    s.auto_mode = true := by
  rw [SerialHardwareController.parse_telemetry] at h
  obtain ⟨g1, h1, h⟩ := option_bind_some_inv h
  obtain ⟨g2, h2, h⟩ := option_bind_some_inv h
  obtain ⟨g3, h3, h⟩ := option_bind_some_inv h
  obtain ⟨g4, h4, h⟩ := option_bind_some_inv h
  obtain ⟨g5, h5, h⟩ := option_bind_some_inv h
  obtain ⟨g6, h6, h⟩ := option_bind_some_inv h
  obtain ⟨g7, h7, h⟩ := option_bind_some_inv h
  obtain ⟨g8, h8, h⟩ := option_bind_some_inv h
  obtain ⟨g9, h9, h⟩ := option_bind_some_inv h
  obtain ⟨g10, h10, h⟩ := option_bind_some_inv h
  obtain ⟨g11, h11, h⟩ := option_bind_some_inv h
  obtain ⟨v1, hv1, h⟩ := option_bind_some_inv h
  obtain ⟨v2, hv2, hmk⟩ := option_bind_some_inv h
  rw [TelemetrySnapshot.mk_validated] at hmk
  split at hmk
  · cases hmk
    rfl
  · cases hmk

/-- Witness for C7: the sample line decodes to a snapshot (with
`auto_mode = true`). -/
theorem c7_parser_assumes_auto_mode_witness :
    TelemetrySnapshot.auto_mode
      ⟨0, 600, 10, true, false, 3, 950, false, false, 30, mkRat 49 2, mkRat 226 5, true,
        RuntimeMode.arduino⟩ = true :=
  c7_parser_assumes_auto_mode sampleLine _ (by decide)

/-! ## C5: factory fallback -/

/-- C5.  In AUTO mode any physical initialization failure (including
`deviceNotFound`) yields the simulated controller — whose runtime mode is
`SIMULATION`, never the physical one — and no exception escapes; in the
two explicit modes there is no fallback: ARDUINO mode propagates the
initialization error unwrapped, and SIMULATION mode ignores the physical
link entirely.  (With a successful physical initialization AUTO returns
the physical controller, so the fallback happens only on failure.) -/
theorem c5_factory_fallback (e : InitError) (o : Option InitError) :
    HardwareControllerFactory.create RuntimeMode.auto (some e) =
      Except.ok ControllerKind.simulated ∧
    (HardwareControllerFactory.create RuntimeMode.auto (some e)).map
      ControllerKind.runtime_mode = Except.ok RuntimeMode.simulation ∧
    HardwareControllerFactory.create RuntimeMode.auto (some e) ≠
      Except.ok ControllerKind.physical ∧
    HardwareControllerFactory.create RuntimeMode.arduino (some e) = Except.error e ∧
    HardwareControllerFactory.create RuntimeMode.simulation o =
      Except.ok ControllerKind.simulated ∧
    HardwareControllerFactory.create RuntimeMode.auto none =
      Except.ok ControllerKind.physical := by
  refine ⟨rfl, rfl, ?_, rfl, rfl, rfl⟩
  intro h
  exact absurd (Except.ok.inj h) (by decide)

/-! ## C6: simulated send_command under auto mode / override -/

/-- C6.  On the simulated backend a command without the override flag sent
while auto mode is enabled returns `false` and leaves the whole environment
(in particular every actuator state) unchanged; a command with
`manual_override = true` or with auto mode disabled that addresses an
actuator returns `true` and sets that actuator's stored state to match the
commanded state (the stored flag is set iff the commanded state is the
actuator's active state). -/
theorem c6_sim_send_command (env : SimulatedEnvironment) (cmd : DeviceCommand) :
    (env.auto_mode = true → cmd.manual_override = false →
      SimulatedHardwareController.send_command env cmd = (false, env)) ∧
    ((cmd.manual_override = true ∨ env.auto_mode = false) →
      ((SimulatedHardwareController.send_command env cmd).1 = true) ∧
      (cmd.device_type = DeviceType.night_led →
        ((SimulatedHardwareController.send_command env cmd).2.night_led_on = true ↔
          cmd.state = DeviceState.on)) ∧
      (cmd.device_type = DeviceType.garage_door →
        ((SimulatedHardwareController.send_command env cmd).2.garage_open = true ↔
          cmd.state = DeviceState.«open»)) ∧
      (cmd.device_type = DeviceType.clothes_servo →
        ((SimulatedHardwareController.send_command env cmd).2.clothes_servo_open = true ↔
          cmd.state = DeviceState.«open»)) ∧
      (cmd.device_type = DeviceType.water_pump →
        ((SimulatedHardwareController.send_command env cmd).2.pump_on = true ↔
          cmd.state = DeviceState.on))) := by
  constructor
  · intro h1 h2
    simp [SimulatedHardwareController.send_command, h1, h2]
  · intro h
    have hguard : (env.auto_mode && !cmd.manual_override) = false := by
      rcases h with h | h <;> simp [h]
    refine ⟨?_, ?_, ?_, ?_, ?_⟩
    · rcases hdt : cmd.device_type <;>
        simp [SimulatedHardwareController.send_command, hguard, hdt]
    · intro hdev
      simp [SimulatedHardwareController.send_command, hguard, hdev]
    · intro hdev
      simp [SimulatedHardwareController.send_command, hguard, hdev]
    · intro hdev
      simp [SimulatedHardwareController.send_command, hguard, hdev]
    · intro hdev
      simp [SimulatedHardwareController.send_command, hguard, hdev]

/-- Witness for C6: in the initial environment (auto mode on), a
night-LED command without override is rejected and changes nothing, and
the same command with override succeeds. -/
theorem c6_sim_send_command_witness :
    SimulatedHardwareController.send_command SimulatedEnvironment.init
      ⟨DeviceType.night_led, DeviceState.on, 0, false⟩ = (false, SimulatedEnvironment.init) ∧
    (SimulatedHardwareController.send_command SimulatedEnvironment.init
      ⟨DeviceType.night_led, DeviceState.on, 0, true⟩).1 = true := by
  constructor
  · exact (c6_sim_send_command SimulatedEnvironment.init
      ⟨DeviceType.night_led, DeviceState.on, 0, false⟩).1 rfl rfl
  · exact ((c6_sim_send_command SimulatedEnvironment.init
      ⟨DeviceType.night_led, DeviceState.on, 0, true⟩).2 (Or.inl rfl)).1

/-! ## C10: sensor-addressed commands on the simulated backend -/

/-- C10.  A command whose device type is sensor-only, sent when auto mode
is off or with `manual_override = true`, falls through the simulated
if/elif chain: it returns `true` and leaves the environment — all four
actuator states and every sensor field — completely unchanged. -/
theorem c10_sim_sensor_commands (env : SimulatedEnvironment) (cmd : DeviceCommand)
    (hs : cmd.device_type.sensor_only)
    (h : cmd.manual_override = true ∨ env.auto_mode = false) :
    SimulatedHardwareController.send_command env cmd = (true, env) := by
  have hguard : (env.auto_mode && !cmd.manual_override) = false := by
    rcases h with h | h <;> simp [h]
  rcases hs with hdev | hdev | hdev | hdev | hdev <;>
    simp [SimulatedHardwareController.send_command, hguard, hdev]

/-- Witness for C10: a motion-sensor command with override in the initial
environment is accepted and is a no-op. -/
theorem c10_sim_sensor_commands_witness :
    SimulatedHardwareController.send_command SimulatedEnvironment.init
      ⟨DeviceType.motion_sensor, DeviceState.detected, 0, true⟩ =
      (true, SimulatedEnvironment.init) :=
  c10_sim_sensor_commands SimulatedEnvironment.init
    ⟨DeviceType.motion_sensor, DeviceState.detected, 0, true⟩ (Or.inl rfl) (Or.inl rfl)

/-! ## C8: the simulated environment stays in range -/

/-- `int()` truncation of a nonnegative value is its floor, hence
nonnegative. -/
theorem pyTrunc_nonneg {q : ℚ} (h : 0 ≤ q) : 0 ≤ pyTrunc q := by
  rw [pyTrunc, if_pos h]
  exact Int.le_floor.mpr (by exact_mod_cast h)

/-- `int()` truncation of a nonnegative value bounded by an integer stays
bounded by it. -/
theorem pyTrunc_le {q : ℚ} {n : ℤ} (h0 : 0 ≤ q) (h : q ≤ (n : ℚ)) : pyTrunc q ≤ n := by
  rw [pyTrunc, if_pos h0]
  calc ⌊q⌋ ≤ ⌊(n : ℚ)⌋ := Int.floor_mono h
    _ = n := Int.floor_intCast n

/-- `round(x, 1)` keeps a value inside any integer-bounded interval
containing it. -/
theorem pyRound1_bounds {a b : ℤ} {q : ℚ} (h1 : (a : ℚ) ≤ q) (h2 : q ≤ (b : ℚ)) :
    (a : ℚ) ≤ pyRound1 q ∧ pyRound1 q ≤ (b : ℚ) := by
  have hlo : 10 * a ≤ round (q * 10) := by
    rw [round_eq]
    refine Int.le_floor.mpr ?_
    push_cast
    linarith
  have hhi : round (q * 10) ≤ 10 * b := by
    rw [round_eq]
    have : (q * 10 + 1 / 2 : ℚ) < ((10 * b + 1 : ℤ) : ℚ) := by
      push_cast
      linarith
    have h := Int.floor_lt.mpr this
    omega
  have hlo' : ((10 * a : ℤ) : ℚ) ≤ ((round (q * 10) : ℤ) : ℚ) := by exact_mod_cast hlo
  have hhi' : ((round (q * 10) : ℤ) : ℚ) ≤ ((10 * b : ℤ) : ℚ) := by exact_mod_cast hhi
  constructor
  · rw [pyRound1, le_div_iff₀ (by norm_num : (0 : ℚ) < 10)]
    push_cast at hlo' ⊢
    linarith
  · rw [pyRound1, div_le_iff₀ (by norm_num : (0 : ℚ) < 10)]
    push_cast at hhi' ⊢
    linarith

/-- The clamped fields of `send_command`'s result environment are those of
its argument (only actuator booleans are ever written). -/
theorem send_command_preserves_ranges (env : SimulatedEnvironment) (cmd : DeviceCommand) :
    (SimulatedHardwareController.send_command env cmd).2.ambient_light = env.ambient_light ∧
    (SimulatedHardwareController.send_command env cmd).2.humidity = env.humidity ∧
    (SimulatedHardwareController.send_command env cmd).2.temperature = env.temperature := by
  unfold SimulatedHardwareController.send_command
  split
  · exact ⟨rfl, rfl, rfl⟩
  split
  · exact ⟨rfl, rfl, rfl⟩
  split
  · exact ⟨rfl, rfl, rfl⟩
  split
  · exact ⟨rfl, rfl, rfl⟩
  split
  · exact ⟨rfl, rfl, rfl⟩
  · exact ⟨rfl, rfl, rfl⟩

/-- Invariant: every reachable simulated environment has ambient light in
`[0, 1023]`, humidity in `[0, 100]` and temperature in `[-10, 40]` (the
clamping bounds of `update`, satisfied by the initial values). -/
theorem sim_reachable_ranges {env : SimulatedEnvironment} (h : SimReachable env) :
    (0 ≤ env.ambient_light ∧ env.ambient_light ≤ 1023) ∧
    (0 ≤ env.humidity ∧ env.humidity ≤ 100) ∧
    (-10 ≤ env.temperature ∧ env.temperature ≤ 40) := by
  induction h with
  | init =>
    refine ⟨⟨?_, ?_⟩, ⟨?_, ?_⟩, ⟨?_, ?_⟩⟩ <;> norm_num [SimulatedEnvironment.init]
  | update dt d _ _ =>
    refine ⟨⟨?_, ?_⟩, ⟨?_, ?_⟩, ⟨?_, ?_⟩⟩ <;>
      simp only [SimulatedEnvironment.update]
    · exact le_max_left 0 _
    · exact max_le (by norm_num) (min_le_left _ _)
    · exact le_max_left 0 _
    · exact max_le (by norm_num) (min_le_left _ _)
    · exact le_max_left (-10) _
    · exact max_le (by norm_num) (min_le_left _ _)
  | auto_logic _ ih =>
    rw [SimulatedEnvironment.apply_auto_mode_logic]
    split
    · exact ih
    · exact ih
  | send cmd _ ih =>
    obtain ⟨e1, e2, e3⟩ := send_command_preserves_ranges _ cmd
    rw [e1, e2, e3]
    exact ih
  | set_auto cmd _ ih => exact ih

/-- C8.  Every environment state reachable from the initial state by any
sequence of tick updates (any non-negative delta, any draws), auto-mode
logic applications, `send_command` mutations and `set_auto_mode` toggles
keeps ambient light within 0–1023, humidity within 0–100 and temperature
within −40..80; consequently `get_telemetry`'s snapshot construction never
fails range validation and never returns `None`. -/
theorem c8_sim_telemetry_valid (env : SimulatedEnvironment) (h : SimReachable env) :
    (0 ≤ env.ambient_light ∧ env.ambient_light ≤ 1023) ∧
    (0 ≤ env.humidity ∧ env.humidity ≤ 100) ∧
    (-40 ≤ env.temperature ∧ env.temperature ≤ 80) ∧
    (SimulatedHardwareController.get_telemetry env).isSome := by
  obtain ⟨⟨ha1, ha2⟩, ⟨hh1, hh2⟩, ⟨ht1, ht2⟩⟩ := sim_reachable_ranges h
  refine ⟨⟨ha1, ha2⟩, ⟨hh1, hh2⟩, ⟨by linarith, by linarith⟩, ?_⟩
  rw [SimulatedHardwareController.get_telemetry, TelemetrySnapshot.mk_validated, if_pos]
  · rfl
  obtain ⟨hr1, hr2⟩ := pyRound1_bounds (a := 0) (b := 100)
    (by exact_mod_cast hh1) (by exact_mod_cast hh2)
  obtain ⟨hr3, hr4⟩ := pyRound1_bounds (a := -10) (b := 40)
    (by exact_mod_cast ht1) (by exact_mod_cast ht2)
  refine ⟨⟨pyTrunc_nonneg ha1, pyTrunc_le ha1 (by exact_mod_cast ha2)⟩,
    ⟨by exact_mod_cast hr1, by exact_mod_cast hr2⟩, ?_⟩
  rintro (hbad | hbad)
  · have : ((-10 : ℤ) : ℚ) ≤ pyRound1 env.temperature := hr3
    push_cast at this
    linarith
  · have : pyRound1 env.temperature ≤ ((40 : ℤ) : ℚ) := hr4
    push_cast at this
    linarith

/-- Witness for C8 at the initial (trivially reachable) environment. -/
theorem c8_sim_telemetry_valid_witness :
    (0 ≤ SimulatedEnvironment.init.ambient_light ∧
      SimulatedEnvironment.init.ambient_light ≤ 1023) ∧
    (0 ≤ SimulatedEnvironment.init.humidity ∧ SimulatedEnvironment.init.humidity ≤ 100) ∧
    (-40 ≤ SimulatedEnvironment.init.temperature ∧
      SimulatedEnvironment.init.temperature ≤ 80) ∧
    (SimulatedHardwareController.get_telemetry SimulatedEnvironment.init).isSome :=
  c8_sim_telemetry_valid SimulatedEnvironment.init SimReachable.init

/-! ## C9 infrastructure: generic scanning lemmas -/

/-- `stripLit` succeeds exactly on inputs that extend the literal. -/
theorem stripLit_eq_some {l s r : List Char} : stripLit l s = some r ↔ s = l ++ r := by
  induction l generalizing s with
  | nil => simp [stripLit]
  | cons c l ih =>
    cases s with
    | nil => simp [stripLit]
    | cons x s =>
      by_cases hx : x = c
      · subst hx
        rw [stripLit, if_pos rfl, ih]
        simp
      · rw [stripLit, if_neg hx]
        constructor
        · intro h
          exact Option.noConfusion h
        · intro h
          injection h with h1 _
          exact absurd h1 hx

/-- `stripLit` at its own literal. -/
theorem stripLit_self_append (l r : List Char) : stripLit l (l ++ r) = some r :=
  stripLit_eq_some.mpr rfl

/-- A successful match at the head short-circuits the scan. -/
theorem find_match_of_head {m : List Char → Option (List Char)} {s g : List Char}
    (h : m s = some g) : find_match m s = some g := by
  cases s with
  | nil => simpa [find_match] using h
  | cons c cs => simp [find_match, h]

/-- If the matcher fails at every position that starts inside `a`, the
scan of `a ++ b` is the scan of `b`. -/
theorem find_match_append {m : List Char → Option (List Char)} {a b : List Char}
    (h : ∀ s, s <:+ a → s ≠ [] → m (s ++ b) = none) :
    find_match m (a ++ b) = find_match m b := by
  induction a with
  | nil => rfl
  | cons c a ih =>
    have h0 : m ((c :: a) ++ b) = none := h (c :: a) List.suffix_rfl (by simp)
    rw [List.cons_append] at h0 ⊢
    rw [find_match, h0]
    exact ih fun s hs hne => h s (hs.trans (List.suffix_cons c a)) hne

/-- Split a prefix of an append at the junction. -/
theorem prefix_append_cases {L a b : List Char} (h : L <+: a ++ b) :
    L <+: a ∨ (a <+: L ∧ List.drop a.length L <+: b) := by
  induction a generalizing L with
  | nil =>
    right
    exact ⟨List.nil_prefix, by simpa using h⟩
  | cons x a ih =>
    cases L with
    | nil => exact Or.inl (List.nil_prefix)
    | cons y L =>
      rw [List.cons_append, List.cons_prefix_cons] at h
      obtain ⟨rfl, h2⟩ := h
      rcases ih h2 with h3 | ⟨h3, h4⟩
      · exact Or.inl (List.cons_prefix_cons.mpr ⟨rfl, h3⟩)
      · refine Or.inr ⟨List.cons_prefix_cons.mpr ⟨rfl, h3⟩, ?_⟩
        simpa using h4

/-- Split a suffix of an append at the junction. -/
theorem suffix_append_cases {s a b : List Char} (h : s <:+ a ++ b) :
    s <:+ b ∨ ∃ a', a' <:+ a ∧ a' ≠ [] ∧ s = a' ++ b := by
  induction a with
  | nil => exact Or.inl (by simpa using h)
  | cons x a ih =>
    rw [List.cons_append, List.suffix_cons_iff] at h
    rcases h with rfl | h
    · exact Or.inr ⟨x :: a, List.suffix_rfl, by simp, by simp⟩
    · rcases ih h with h | ⟨a', ha1, ha2, rfl⟩
      · exact Or.inl h
      · exact Or.inr ⟨a', ha1.trans (List.suffix_cons x a), ha2, rfl⟩

/-- A list whose characters all avoid the class `p` is not an infix of a
`p`-run followed by anything it is not an infix of. -/
theorem not_infix_run_append {L d post : List Char} {p : Char → Bool}
    (hL : ∀ c ∈ L, p c = false) (hd : ∀ c ∈ d, p c = true) (hL0 : L ≠ [])
    (hpost : ¬ L <:+: post) : ¬ L <:+: (d ++ post) := by
  induction d with
  | nil => simpa using hpost
  | cons c d ih =>
    intro h
    rw [List.cons_append, List.infix_cons_iff] at h
    rcases h with h | h
    · obtain ⟨y, L', rfl⟩ := List.exists_cons_of_ne_nil hL0
      rw [List.cons_prefix_cons] at h
      obtain ⟨rfl, -⟩ := h
      have h1 := hL y (by simp)
      have h2 := hd y (by simp)
      rw [h1] at h2
      exact Bool.false_ne_true h2
    · exact ih (fun c hc => hd c (by simp [hc])) h

/-- A list whose characters all avoid the class `p` occurs inside
`pre ++ run ++ post` only where it occurs inside `pre` or inside `post`
(the run is nonempty, so no occurrence can bridge `pre` and `post`). -/
theorem not_infix_lit_run_lit {L pre d post : List Char} {p : Char → Bool}
    (hL : ∀ c ∈ L, p c = false) (hd : ∀ c ∈ d, p c = true) (hd0 : d ≠ []) (hL0 : L ≠ [])
    (hpost : ¬ L <:+: post) : ¬ L <:+: pre → ¬ L <:+: (pre ++ (d ++ post)) := by
  induction pre with
  | nil =>
    intro _
    simpa using not_infix_run_append hL hd hL0 hpost
  | cons x pre ih =>
    intro hpre h
    rw [List.cons_append, List.infix_cons_iff] at h
    rcases h with h | h
    · rcases prefix_append_cases (a := x :: pre) (b := d ++ post) (by simpa using h) with
        h1 | ⟨h1, h2⟩
      · exact hpre h1.isInfix
      · cases hL2 : List.drop (x :: pre).length L with
        | nil =>
          have hlen : L.length ≤ (x :: pre).length := by
            have := List.drop_eq_nil_iff.mp hL2
            simpa using this
          have heq : x :: pre = L := h1.eq_of_length (le_antisymm h1.length_le hlen)
          exact hpre (heq ▸ List.infix_rfl)
        | cons c L3 =>
          obtain ⟨c', d', rfl⟩ := List.exists_cons_of_ne_nil hd0
          rw [hL2, List.cons_append, List.cons_prefix_cons] at h2
          obtain ⟨rfl, -⟩ := h2
          have hcL : c ∈ L := by
            have hLdecomp : L = (x :: pre) ++ List.drop (x :: pre).length L := by
              conv_lhs => rw [← List.take_append_drop (x :: pre).length L]
              rw [← List.prefix_iff_eq_take.mp h1]
            rw [hLdecomp, hL2]
            simp
          have h1' := hL c hcL
          have h2' := hd c (by simp)
          rw [h1'] at h2'
          exact Bool.false_ne_true h2'
    · exact ih (fun hinf => hpre (List.infix_cons hinf)) h

/-- No occurrence of a label `L` can start strictly inside a field segment
that is followed by the separator: an occurrence inside `seg` is excluded
by `hinf`, one reaching exactly the separator's first space by `hend`, and
one reaching further would have to contain `'|'`. -/
theorem no_head_match_in_seg {L seg b : List Char} (hbar : '|' ∉ L)
    (hinf : ¬ L <:+: seg) (hend : ∀ s', s' <:+ seg → s' ++ [' '] ≠ L)
    {s' : List Char} (hs' : s' <:+ seg) : ¬ L <+: (s' ++ (fieldSep ++ b)) := by
  intro h
  rcases prefix_append_cases h with h1 | ⟨h1, h2⟩
  · exact hinf (h1.isInfix.trans hs'.isInfix)
  · have hLdecomp : L = s' ++ List.drop s'.length L := by
      conv_lhs => rw [← List.take_append_drop s'.length L]
      rw [← List.prefix_iff_eq_take.mp h1]
    cases hL2 : List.drop s'.length L with
    | nil =>
      rw [hL2, List.append_nil] at hLdecomp
      exact hinf (hLdecomp ▸ hs'.isInfix)
    | cons c L3 =>
      rw [hL2] at h2
      rw [show fieldSep ++ b = ' ' :: '|' :: ' ' :: b from rfl, List.cons_prefix_cons] at h2
      obtain ⟨rfl, h2⟩ := h2
      cases L3 with
      | nil =>
        exact hend s' hs' (by rw [← hL2, ← hLdecomp])
      | cons c2 L4 =>
        rw [List.cons_prefix_cons] at h2
        obtain ⟨rfl, -⟩ := h2
        apply hbar
        rw [hLdecomp, hL2]
        simp

/-- Skipping one rendered field (followed by the separator) during the
scan: the matcher can only fire where one of its labels `Ls` occurs, and
the safety hypotheses exclude every occurrence starting inside
`seg ++ fieldSep`. -/
theorem find_match_skip_seg {m : List Char → Option (List Char)} {Ls : List (List Char)}
    (hm : ∀ s g, m s = some g → ∃ L ∈ Ls, L <+: s)
    (hLs : ∀ L ∈ Ls, L ≠ [] ∧ '|' ∉ L ∧ L.head? ≠ some ' ')
    {seg b : List Char}
    (hsafe : ∀ L ∈ Ls, ¬ L <:+: seg ∧ ∀ s', s' <:+ seg → s' ++ [' '] ≠ L) :
    find_match m ((seg ++ fieldSep) ++ b) = find_match m b := by
  apply find_match_append
  intro s' hs' hne
  cases hg : m (s' ++ b) with
  | none => rfl
  | some g =>
    exfalso
    obtain ⟨L, hLmem, hpfx⟩ := hm _ _ hg
    obtain ⟨hL0, hbar, hhd⟩ := hLs L hLmem
    obtain ⟨hinf, hend⟩ := hsafe L hLmem
    rcases suffix_append_cases hs' with hcase | ⟨a', ha1, ha2, rfl⟩
    · obtain ⟨l0, L', rfl⟩ := List.exists_cons_of_ne_nil hL0
      rw [show fieldSep = ' ' :: '|' :: ' ' :: [] from rfl] at hcase
      rcases List.suffix_cons_iff.mp hcase with rfl | hcase2
      · have h0 := (List.cons_prefix_cons.mp hpfx).1
        exact hhd (by rw [h0]; rfl)
      rcases List.suffix_cons_iff.mp hcase2 with rfl | hcase3
      · have h0 := (List.cons_prefix_cons.mp hpfx).1
        exact hbar (by rw [h0]; simp)
      rcases List.suffix_cons_iff.mp hcase3 with rfl | hcase4
      · have h0 := (List.cons_prefix_cons.mp hpfx).1
        exact hhd (by rw [h0]; rfl)
      · rw [List.suffix_nil] at hcase4
        exact hne hcase4
    · rw [List.append_assoc] at hpfx
      exact no_head_match_in_seg hbar hinf hend ha1 hpfx

/-- `renderJoin` unfolds one field at a time. -/
theorem renderJoin_cons (f : TField) (as : List TField) :
    renderJoin (f :: as) = (f.render ++ fieldSep) ++ renderJoin as := by
  simp [renderJoin, List.append_assoc]

/-- Skipping a whole run of rendered fields during the scan. -/
theorem find_match_skip_join {m : List Char → Option (List Char)} {Ls : List (List Char)}
    (hm : ∀ s g, m s = some g → ∃ L ∈ Ls, L <+: s)
    (hLs : ∀ L ∈ Ls, L ≠ [] ∧ '|' ∉ L ∧ L.head? ≠ some ' ')
    (as : List TField) (b : List Char)
    (hsafe : ∀ f ∈ as, ∀ L ∈ Ls,
      ¬ L <:+: f.render ∧ ∀ s', s' <:+ f.render → s' ++ [' '] ≠ L) :
    find_match m (renderJoin as ++ b) = find_match m b := by
  induction as with
  | nil => rfl
  | cons f as ih =>
    rw [renderJoin_cons, List.append_assoc,
      find_match_skip_seg hm hLs (hsafe f (by simp)),
      ih (fun g hg => hsafe g (by simp [hg]))]

/-- `renderLine` of a list with a nonempty tail. -/
theorem renderLine_cons {f : TField} {gs : List TField} (h : gs ≠ []) :
    renderLine (f :: gs) = (f.render ++ fieldSep) ++ renderLine gs := by
  cases gs with
  | nil => exact absurd rfl h
  | cons g gs => simp [renderLine, List.append_assoc]

/-- Splitting `renderLine` before a nonempty tail of fields. -/
theorem renderLine_append {as bs : List TField} (h : bs ≠ []) :
    renderLine (as ++ bs) = renderJoin as ++ renderLine bs := by
  induction as with
  | nil => rfl
  | cons f as ih =>
    have hne : as ++ bs ≠ [] := by
      intro hx
      exact h (List.append_eq_nil.mp hx).2
    rw [List.cons_append, renderLine_cons hne, ih, renderJoin_cons]
    simp [List.append_assoc]

/-! ### Matchers fire only where their label occurs -/

/-- `matchLabelNat` requires its label at the match position. -/
theorem matchLabelNat_label {label s g : List Char} (h : matchLabelNat label s = some g) :
    label <+: s := by
  rw [matchLabelNat] at h
  cases hs : stripLit label s with
  | none => rw [hs] at h; exact Option.noConfusion h
  | some s1 =>
    rw [stripLit_eq_some.mp hs]
    exact List.prefix_append label s1

/-- `matchLabelNatUnit` requires its label at the match position. -/
theorem matchLabelNatUnit_label {label unit s g : List Char}
    (h : matchLabelNatUnit label unit s = some g) : label <+: s := by
  rw [matchLabelNatUnit] at h
  cases hs : stripLit label s with
  | none => rw [hs] at h; exact Option.noConfusion h
  | some s1 =>
    rw [stripLit_eq_some.mp hs]
    exact List.prefix_append label s1

/-- `matchLabelFloatUnit` requires its label at the match position. -/
theorem matchLabelFloatUnit_label {label unit s g : List Char}
    (h : matchLabelFloatUnit label unit s = some g) : label <+: s := by
  rw [matchLabelFloatUnit] at h
  cases hs : stripLit label s with
  | none => rw [hs] at h; exact Option.noConfusion h
  | some s1 =>
    rw [stripLit_eq_some.mp hs]
    exact List.prefix_append label s1

/-- `matchLabelFloatTight` requires its label at the match position. -/
theorem matchLabelFloatTight_label {label unit s g : List Char}
    (h : matchLabelFloatTight label unit s = some g) : label <+: s := by
  rw [matchLabelFloatTight] at h
  cases hs : stripLit label s with
  | none => rw [hs] at h; exact Option.noConfusion h
  | some s1 =>
    rw [stripLit_eq_some.mp hs]
    exact List.prefix_append label s1

/-- `matchAlts` returns one of its alternatives, which prefixes the input. -/
theorem matchAlts_label {alts : List (List Char)} {s g : List Char}
    (h : matchAlts alts s = some g) : g ∈ alts ∧ g <+: s := by
  induction alts with
  | nil => exact Option.noConfusion h
  | cons a rest ih =>
    rw [matchAlts] at h
    cases hs : stripLit a s with
    | none =>
      rw [hs] at h
      have := ih h
      exact ⟨by simp [this.1], this.2⟩
    | some r =>
      rw [hs] at h
      injection h with h1
      subst h1
      refine ⟨by simp, ?_⟩
      rw [stripLit_eq_some.mp hs]
      exact List.prefix_append a r

/-- `matchLabelAlts` requires its label at the match position. -/
theorem matchLabelAlts_label {label : List Char} {alts : List (List Char)} {s g : List Char}
    (h : matchLabelAlts label alts s = some g) : label <+: s := by
  rw [matchLabelAlts] at h
  cases hs : stripLit label s with
  | none => rw [hs] at h; exact Option.noConfusion h
  | some s1 =>
    rw [stripLit_eq_some.mp hs]
    exact List.prefix_append label s1

/-- `matchLabelSpAlts` requires its label at the match position. -/
theorem matchLabelSpAlts_label {label : List Char} {alts : List (List Char)} {s g : List Char}
    (h : matchLabelSpAlts label alts s = some g) : label <+: s := by
  rw [matchLabelSpAlts] at h
  cases hs : stripLit label s with
  | none => rw [hs] at h; exact Option.noConfusion h
  | some s1 =>
    rw [stripLit_eq_some.mp hs]
    exact List.prefix_append label s1

/-! ### Character-class facts -/

/-- A digit is not regex whitespace. -/
theorem isSpaceChar_false_of_digit {c : Char} (h : c.isDigit = true) :
    isSpaceChar c = false := by
  cases hs : isSpaceChar c
  · rfl
  · exfalso
    rw [isSpaceChar] at hs
    simp only [Bool.or_eq_true, beq_iff_eq] at hs
    have hcases : c = ' ' ∨ c = '\t' ∨ c = '\n' ∨ c = '\r' ∨ c = '\x0b' ∨ c = '\x0c' := by
      tauto
    rcases hcases with rfl | rfl | rfl | rfl | rfl | rfl <;> exact absurd h (by decide)

/-- A `[\d.]` character is not regex whitespace. -/
theorem isSpaceChar_false_of_digitDot {c : Char} (h : isDigitDot c = true) :
    isSpaceChar c = false := by
  rw [isDigitDot, Bool.or_eq_true, beq_iff_eq] at h
  rcases h with h | rfl
  · exact isSpaceChar_false_of_digit h
  · rfl

/-! ### takeWhile / dropWhile over an append -/

/-- `takeWhile`/`dropWhile` consume exactly a run whose characters satisfy
the class when the remainder starts with a character that does not. -/
theorem takeWhile_append_all {p : Char → Bool} {t : List Char}
    (ht : ∀ c, t.head? = some c → p c = false) :
    ∀ d : List Char, (∀ c ∈ d, p c = true) →
      (d ++ t).takeWhile p = d ∧ (d ++ t).dropWhile p = t := by
  intro d
  induction d with
  | nil =>
    intro _
    cases t with
    | nil => exact ⟨rfl, rfl⟩
    | cons c t =>
      have hc := ht c rfl
      simp [List.takeWhile_cons, List.dropWhile_cons, hc]
  | cons c d ih =>
    intro hd
    have hc := hd c (by simp)
    have ihh := ih (fun x hx => hd x (by simp [hx]))
    simp [List.takeWhile_cons, List.dropWhile_cons, hc, ihh.1, ihh.2]

/-! ### Matchers at the start of their own field -/

/-- `dropWhile` over regex whitespace skips a leading space. -/
theorem dropWhile_space_cons (x : List Char) :
    List.dropWhile isSpaceChar (' ' :: x) = List.dropWhile isSpaceChar x := rfl

/-- `dropWhile` stops at a head that fails the class. -/
theorem dropWhile_head_false {p : Char → Bool} {c : Char} (hc : p c = false)
    (x : List Char) : List.dropWhile p (c :: x) = c :: x := by
  simp [List.dropWhile_cons, hc]

/-- `matchLabelNat` after consuming its own label. -/
theorem matchLabelNat_strip (label s1 : List Char) :
    matchLabelNat label (label ++ s1) =
      (if (s1.dropWhile isSpaceChar).takeWhile Char.isDigit = [] then none
       else some ((s1.dropWhile isSpaceChar).takeWhile Char.isDigit)) := by
  rw [matchLabelNat, stripLit_self_append]

/-- `matchLabelNatUnit` after consuming its own label. -/
theorem matchLabelNatUnit_strip (label unit s1 : List Char) :
    matchLabelNatUnit label unit (label ++ s1) =
      (if (s1.dropWhile isSpaceChar).takeWhile Char.isDigit = [] then none
       else
         match stripLit unit
             (((s1.dropWhile isSpaceChar).dropWhile Char.isDigit).dropWhile isSpaceChar) with
         | none => none
         | some _ => some ((s1.dropWhile isSpaceChar).takeWhile Char.isDigit)) := by
  rw [matchLabelNatUnit, stripLit_self_append]

/-- `matchLabelFloatUnit` after consuming its own label. -/
theorem matchLabelFloatUnit_strip (label unit s1 : List Char) :
    matchLabelFloatUnit label unit (label ++ s1) =
      (if (s1.dropWhile isSpaceChar).takeWhile isDigitDot = [] then none
       else
         match stripLit unit
             (((s1.dropWhile isSpaceChar).dropWhile isDigitDot).dropWhile isSpaceChar) with
         | none => none
         | some _ => some ((s1.dropWhile isSpaceChar).takeWhile isDigitDot)) := by
  rw [matchLabelFloatUnit, stripLit_self_append]

/-- `matchLabelFloatTight` after consuming its own label. -/
theorem matchLabelFloatTight_strip (label unit s1 : List Char) :
    matchLabelFloatTight label unit (label ++ s1) =
      (if (s1.dropWhile isSpaceChar).takeWhile isDigitDot = [] then none
       else
         match stripLit unit ((s1.dropWhile isSpaceChar).dropWhile isDigitDot) with
         | none => none
         | some _ => some ((s1.dropWhile isSpaceChar).takeWhile isDigitDot)) := by
  rw [matchLabelFloatTight, stripLit_self_append]

/-- `<label>\s*(\d+)` matches at `label ++ " " ++ run` and captures the
run, for any tail that starts with a space (or is empty). -/
theorem matchLabelNat_at {label d t : List Char} (hd0 : d ≠ [])
    (hd : ∀ c ∈ d, Char.isDigit c = true) (ht : ∀ c, t.head? = some c → c = ' ') :
    matchLabelNat label (label ++ (' ' :: (d ++ t))) = some d := by
  obtain ⟨c0, d', rfl⟩ := List.exists_cons_of_ne_nil hd0
  have htw := takeWhile_append_all (p := Char.isDigit)
    (fun c hc => by rw [ht c hc]; rfl) (c0 :: d') hd
  have hc0 : isSpaceChar c0 = false := isSpaceChar_false_of_digit (hd c0 (by simp))
  rw [matchLabelNat_strip, dropWhile_space_cons, List.cons_append,
    dropWhile_head_false hc0, ← List.cons_append, htw.1]
  simp

/-- `<label>\s*(\d+)\s*<unit>` matches at
`label ++ " " ++ run ++ " " ++ unit` and captures the run, for any tail. -/
theorem matchLabelNatUnit_at {label d : List Char} {u0 : Char} {urest t : List Char}
    (hd0 : d ≠ []) (hd : ∀ c ∈ d, Char.isDigit c = true)
    (hu : isSpaceChar u0 = false) :
    matchLabelNatUnit label (u0 :: urest)
      (label ++ (' ' :: (d ++ (' ' :: ((u0 :: urest) ++ t))))) = some d := by
  obtain ⟨c0, d', rfl⟩ := List.exists_cons_of_ne_nil hd0
  have htw := takeWhile_append_all (p := Char.isDigit)
    (t := ' ' :: ((u0 :: urest) ++ t)) (fun c hc => by cases hc; rfl) (c0 :: d') hd
  have hc0 : isSpaceChar c0 = false := isSpaceChar_false_of_digit (hd c0 (by simp))
  rw [matchLabelNatUnit_strip, dropWhile_space_cons, List.cons_append,
    dropWhile_head_false hc0, ← List.cons_append, htw.1, htw.2,
    dropWhile_space_cons, List.cons_append, dropWhile_head_false hu,
    ← List.cons_append, stripLit_self_append]
  simp

/-- `<label>\s*([\d.]+)\s*<unit>` matches at
`label ++ " " ++ run ++ " " ++ unit` and captures the run. -/
theorem matchLabelFloatUnit_at {label f : List Char} {u0 : Char} {urest t : List Char}
    (hf0 : f ≠ []) (hf : ∀ c ∈ f, isDigitDot c = true)
    (hu : isSpaceChar u0 = false) :
    matchLabelFloatUnit label (u0 :: urest)
      (label ++ (' ' :: (f ++ (' ' :: ((u0 :: urest) ++ t))))) = some f := by
  obtain ⟨c0, f', rfl⟩ := List.exists_cons_of_ne_nil hf0
  have htw := takeWhile_append_all (p := isDigitDot)
    (t := ' ' :: ((u0 :: urest) ++ t)) (fun c hc => by cases hc; rfl) (c0 :: f') hf
  have hc0 : isSpaceChar c0 = false := isSpaceChar_false_of_digitDot (hf c0 (by simp))
  rw [matchLabelFloatUnit_strip, dropWhile_space_cons, List.cons_append,
    dropWhile_head_false hc0, ← List.cons_append, htw.1, htw.2,
    dropWhile_space_cons, List.cons_append, dropWhile_head_false hu,
    ← List.cons_append, stripLit_self_append]
  simp

/-- `<label>\s*([\d.]+)<unit>` (unit immediately after the run) matches at
`label ++ " " ++ run ++ unit` and captures the run. -/
theorem matchLabelFloatTight_at {label f : List Char} {u0 : Char} {urest t : List Char}
    (hf0 : f ≠ []) (hf : ∀ c ∈ f, isDigitDot c = true)
    (hu : isDigitDot u0 = false) :
    matchLabelFloatTight label (u0 :: urest)
      (label ++ (' ' :: (f ++ ((u0 :: urest) ++ t)))) = some f := by
  obtain ⟨c0, f', rfl⟩ := List.exists_cons_of_ne_nil hf0
  have htw := takeWhile_append_all (p := isDigitDot)
    (t := (u0 :: urest) ++ t) (fun c hc => by cases hc; exact hu) (c0 :: f') hf
  have hc0 : isSpaceChar c0 = false := isSpaceChar_false_of_digitDot (hf c0 (by simp))
  rw [matchLabelFloatTight_strip, dropWhile_space_cons, List.cons_append,
    dropWhile_head_false hc0, ← List.cons_append, htw.1, htw.2, stripLit_self_append]
  simp

/-! ### Safety of a label against each field shape -/

/-- A list not ending in a space never becomes `L` by appending a space. -/
theorem endSafe_of_getLast {L : List Char} (h : L.getLast? ≠ some ' ') (s' : List Char) :
    s' ++ [' '] ≠ L := by
  intro heq
  apply h
  rw [← heq, List.getLast?_concat]

/-- No digit is `'p'`. -/
theorem digit_ne_p : ∀ c, Char.isDigit c = true → c ≠ 'p' := by
  intro c h hc
  subst hc
  exact absurd h (by decide)

/-- No `[\d.]` character is `'p'`. -/
theorem digitDot_ne_p : ∀ c, isDigitDot c = true → c ≠ 'p' := by
  intro c h hc
  subst hc
  exact absurd h (by decide)

/-- Safety of a label against a pure-literal field. -/
theorem safe_seg_lit {L lit : List Char}
    (hinf : ¬ L <:+: lit)
    (hend : L.getLast? ≠ some ' ' ∨ (L = "Pump ".toList ∧ ¬ ("Pump".toList <:+ lit))) :
    ¬ L <:+: lit ∧ ∀ s', s' <:+ lit → s' ++ [' '] ≠ L := by
  refine ⟨hinf, ?_⟩
  rcases hend with hend | ⟨rfl, hpump⟩
  · exact fun s' _ => endSafe_of_getLast hend s'
  · intro s' hs' heq
    have hs : s' = "Pump".toList :=
      List.append_cancel_right (heq.trans (show "Pump ".toList = "Pump".toList ++ [' '] from rfl))
    subst hs
    exact hpump hs'

/-- Safety of a label against a field of shape `literal ++ run`. -/
theorem safe_seg_run {L pre d : List Char} {p : Char → Bool}
    (hL : ∀ c ∈ L, p c = false) (hd : ∀ c ∈ d, p c = true) (hd0 : d ≠ []) (hL0 : L ≠ [])
    (hpre : ¬ L <:+: pre)
    (hend : L.getLast? ≠ some ' ' ∨
      (L = "Pump ".toList ∧ ∀ c, p c = true → c ≠ 'p')) :
    ¬ L <:+: (pre ++ d) ∧ ∀ s', s' <:+ (pre ++ d) → s' ++ [' '] ≠ L := by
  constructor
  · have h := @not_infix_lit_run_lit L pre d [] p hL hd hd0 hL0 (by simpa using hL0) hpre
    simpa using h
  · intro s' hs' heq
    rcases hend with hend | ⟨rfl, hp⟩
    · exact endSafe_of_getLast hend s' heq
    · have hs : s' = "Pump".toList :=
        List.append_cancel_right
          (heq.trans (show "Pump ".toList = "Pump".toList ++ [' '] from rfl))
      subst hs
      obtain ⟨tp, htp⟩ := hs'
      have h1 : (pre ++ d).getLast? = d.getLast? :=
        List.getLast?_append_of_ne_nil pre hd0
      have h2 : (pre ++ d).getLast? = some 'p' := by
        rw [← htp, show "Pump".toList = "Pum".toList ++ ['p'] from rfl, ← List.append_assoc,
          List.getLast?_concat]
      rw [h1] at h2
      exact hp 'p' (hd 'p' (List.mem_of_getLast?_eq_some h2)) rfl

/-- Safety of a label against a field of shape
`literal ++ run ++ literal`. -/
theorem safe_seg_run_post {L pre d post : List Char} {p : Char → Bool}
    (hL : ∀ c ∈ L, p c = false) (hd : ∀ c ∈ d, p c = true) (hd0 : d ≠ []) (hL0 : L ≠ [])
    (hpre : ¬ L <:+: pre) (hpost : ¬ L <:+: post) (hpost0 : post ≠ [])
    (hend : L.getLast? ≠ some ' ' ∨
      (L = "Pump ".toList ∧ post.getLast? ≠ some 'p')) :
    ¬ L <:+: (pre ++ d ++ post) ∧ ∀ s', s' <:+ (pre ++ d ++ post) → s' ++ [' '] ≠ L := by
  constructor
  · rw [List.append_assoc]
    exact not_infix_lit_run_lit hL hd hd0 hL0 hpost hpre
  · intro s' hs' heq
    rcases hend with hend | ⟨rfl, hp⟩
    · exact endSafe_of_getLast hend s' heq
    · have hs : s' = "Pump".toList :=
        List.append_cancel_right
          (heq.trans (show "Pump ".toList = "Pump".toList ++ [' '] from rfl))
      subst hs
      obtain ⟨tp, htp⟩ := hs'
      apply hp
      have h1 : (pre ++ d ++ post).getLast? = post.getLast? :=
        List.getLast?_append_of_ne_nil _ hpost0
      rw [← h1, ← htp, show "Pump".toList = "Pum".toList ++ ['p'] from rfl,
        ← List.append_assoc, List.getLast?_concat]

/-- The complete safety condition of a label `L` against one well-formed
field: `L` occurs nowhere inside the field's text, and no suffix of the
field extends to `L` by the separator's leading space.  The label only has
to avoid the field's literal chunks (checked by decision at each use), its
value-run classes, and — unless it is the pump label — a trailing space. -/
theorem safe_label_field (L : List Char) (f : TField) (hwf : TField.wf f) (hL0 : L ≠ [])
    (hdot : ∀ c ∈ L, isDigitDot c = false)
    (hlits : ∀ lit ∈ f.litChunks, ¬ L <:+: lit)
    (hend : L.getLast? ≠ some ' ' ∨ L = "Pump ".toList) :
    ¬ L <:+: f.render ∧ ∀ s', s' <:+ f.render → s' ++ [' '] ≠ L := by
  have hdig : ∀ c ∈ L, Char.isDigit c = false := by
    intro c hc
    have h := hdot c hc
    cases hdc : c.isDigit
    · rfl
    · exfalso
      rw [isDigitDot, hdc] at h
      exact Bool.noConfusion h
  cases f with
  | ldr d =>
    obtain ⟨hd0, hd⟩ := hwf
    exact safe_seg_run hdig hd hd0 hL0 (hlits _ (by simp [TField.litChunks]))
      (hend.imp (fun h => h) (fun h => ⟨h, digit_ne_p⟩))
  | garage d =>
    obtain ⟨hd0, hd⟩ := hwf
    exact safe_seg_run_post hdig hd hd0 hL0 (hlits _ (by simp [TField.litChunks]))
      (hlits _ (by simp [TField.litChunks])) (by decide)
      (hend.imp (fun h => h) (fun h => ⟨h, by decide⟩))
  | motion b =>
    cases b
    · exact safe_seg_lit (hlits _ (by simp [TField.litChunks, TField.render]))
        (hend.imp (fun h => h) (fun h => ⟨h, by decide⟩))
    · exact safe_seg_lit (hlits _ (by simp [TField.litChunks, TField.render]))
        (hend.imp (fun h => h) (fun h => ⟨h, by decide⟩))
  | rain b =>
    cases b
    · exact safe_seg_lit (hlits _ (by simp [TField.litChunks, TField.render]))
        (hend.imp (fun h => h) (fun h => ⟨h, by decide⟩))
    · exact safe_seg_lit (hlits _ (by simp [TField.litChunks, TField.render]))
        (hend.imp (fun h => h) (fun h => ⟨h, by decide⟩))
  | water d =>
    obtain ⟨hd0, hd⟩ := hwf
    exact safe_seg_run_post hdig hd hd0 hL0 (hlits _ (by simp [TField.litChunks]))
      (hlits _ (by simp [TField.litChunks])) (by decide)
      (hend.imp (fun h => h) (fun h => ⟨h, by decide⟩))
  | soil d =>
    obtain ⟨hd0, hd⟩ := hwf
    exact safe_seg_run hdig hd hd0 hL0 (hlits _ (by simp [TField.litChunks]))
      (hend.imp (fun h => h) (fun h => ⟨h, digit_ne_p⟩))
  | pump b =>
    cases b
    · exact safe_seg_lit (hlits _ (by simp [TField.litChunks, TField.render]))
        (hend.imp (fun h => h) (fun h => ⟨h, by decide⟩))
    · exact safe_seg_lit (hlits _ (by simp [TField.litChunks, TField.render]))
        (hend.imp (fun h => h) (fun h => ⟨h, by decide⟩))
  | flame b =>
    cases b
    · exact safe_seg_lit (hlits _ (by simp [TField.litChunks, TField.render]))
        (hend.imp (fun h => h) (fun h => ⟨h, by decide⟩))
    · exact safe_seg_lit (hlits _ (by simp [TField.litChunks, TField.render]))
        (hend.imp (fun h => h) (fun h => ⟨h, by decide⟩))
  | smoke d =>
    obtain ⟨hd0, hd⟩ := hwf
    exact safe_seg_run hdig hd hd0 hL0 (hlits _ (by simp [TField.litChunks]))
      (hend.imp (fun h => h) (fun h => ⟨h, digit_ne_p⟩))
  | temp f =>
    obtain ⟨hf0, hf⟩ := hwf
    exact safe_seg_run_post hdot hf hf0 hL0 (hlits _ (by simp [TField.litChunks]))
      (hlits _ (by simp [TField.litChunks])) (by decide)
      (hend.imp (fun h => h) (fun h => ⟨h, by decide⟩))
  | hum f =>
    obtain ⟨hf0, hf⟩ := hwf
    exact safe_seg_run_post hdot hf hf0 hL0 (hlits _ (by simp [TField.litChunks]))
      (hlits _ (by simp [TField.litChunks])) (by decide)
      (hend.imp (fun h => h) (fun h => ⟨h, by decide⟩))

/-- Extract one element of a permutation of a concrete list. -/
theorem perm_extract (u : List TField) (x : TField) (v : List TField) {fs : List TField}
    (hp : fs.Perm (u ++ x :: v)) : fs.Perm (x :: (u ++ v)) :=
  hp.trans List.perm_middle

/-- Split a list that is a permutation of `x :: others` around `x`; the
remaining elements all come from `others`. -/
theorem split_of_perm_cons {fs : List TField} {x : TField} {others : List TField}
    (hp : fs.Perm (x :: others)) :
    ∃ as bs, fs = as ++ x :: bs ∧ ∀ f ∈ as ++ bs, f ∈ others := by
  have hx : x ∈ fs := hp.mem_iff.mpr (by simp)
  obtain ⟨as, bs, rfl⟩ := List.append_of_mem hx
  refine ⟨as, bs, rfl, ?_⟩
  have h1 : (as ++ x :: bs).Perm (x :: (as ++ bs)) := List.perm_middle
  have h3 : (as ++ bs).Perm others := (h1.symm.trans hp).cons_inv
  intro f hf
  exact h3.mem_iff.mp hf

/-! ### Each search finds its own field in any permutation -/

/-- The LDR search on any well-formed arrangement of the eleven fields
returns the LDR field's digit run. -/
theorem searchLDR_of_perm {d1 d2 : List Char} {b1 b2 : Bool} {d3 d4 : List Char}
    {b3 b4 : Bool} {d5 f1 f2 : List Char} {fs : List TField}
    (hp : fs.Perm (canonicalFields d1 d2 b1 b2 d3 d4 b3 b4 d5 f1 f2))
    (hw : ∀ f ∈ fs, f.wf) :
    searchLDR (renderLine fs) = some d1 := by
  have hp' := perm_extract [] (TField.ldr d1)
    [TField.garage d2, TField.motion b1, TField.rain b2, TField.water d3, TField.soil d4,
     TField.pump b3, TField.flame b4, TField.smoke d5, TField.temp f1, TField.hum f2] hp
  obtain ⟨as, bs, rfl, hmem⟩ := split_of_perm_cons hp'
  obtain ⟨hd0, hdig⟩ : TField.wf (TField.ldr d1) := hw _ (by simp)
  have hm : ∀ s g, matchLabelNat "LDR:".toList s = some g →
      ∃ L ∈ ["LDR:".toList], L <+: s :=
    fun s g h => ⟨"LDR:".toList, by simp, matchLabelNat_label h⟩
  have hLs : ∀ L ∈ ["LDR:".toList], L ≠ [] ∧ '|' ∉ L ∧ L.head? ≠ some ' ' := by decide
  have hsafe : ∀ f ∈ as, ∀ L ∈ ["LDR:".toList],
      ¬ L <:+: f.render ∧ ∀ s', s' <:+ f.render → s' ++ [' '] ≠ L := by
    intro f hf L hL
    rw [List.mem_singleton] at hL
    subst hL
    have hfo := hmem f (List.mem_append_left _ hf)
    have hwf := hw f (List.mem_append_left _ hf)
    simp only [List.nil_append, List.mem_cons, List.not_mem_nil, or_false] at hfo
    rcases hfo with rfl | rfl | rfl | rfl | rfl | rfl | rfl | rfl | rfl | rfl <;>
      exact safe_label_field _ _ hwf (by decide) (by decide)
        (by simp only [TField.litChunks]; decide) (Or.inl (by decide))
  rw [searchLDR, renderLine_append (by simp), find_match_skip_join hm hLs as _ hsafe]
  cases bs with
  | nil =>
    apply find_match_of_head
    have h := @matchLabelNat_at "LDR:".toList d1 [] hd0 hdig
      (fun c hc => Option.noConfusion hc)
    rw [List.append_nil] at h
    exact h
  | cons g bs =>
    apply find_match_of_head
    rw [renderLine_cons (by simp)]
    have h := @matchLabelNat_at "LDR:".toList d1 (fieldSep ++ renderLine (g :: bs)) hd0 hdig
      (fun c hc => by injection hc with h1; exact h1.symm)
    rw [show (TField.ldr d1).render = "LDR: ".toList ++ d1 from rfl, List.append_assoc,
      List.append_assoc]
    exact h

/-- The garage search on any well-formed arrangement returns the garage
field's digit run. -/
theorem searchGarage_of_perm {d1 d2 : List Char} {b1 b2 : Bool} {d3 d4 : List Char}
    {b3 b4 : Bool} {d5 f1 f2 : List Char} {fs : List TField}
    (hp : fs.Perm (canonicalFields d1 d2 b1 b2 d3 d4 b3 b4 d5 f1 f2))
    (hw : ∀ f ∈ fs, f.wf) :
    searchGarage (renderLine fs) = some d2 := by
  have hp' := perm_extract [TField.ldr d1] (TField.garage d2)
    [TField.motion b1, TField.rain b2, TField.water d3, TField.soil d4,
     TField.pump b3, TField.flame b4, TField.smoke d5, TField.temp f1, TField.hum f2] hp
  obtain ⟨as, bs, rfl, hmem⟩ := split_of_perm_cons hp'
  obtain ⟨hd0, hdig⟩ : TField.wf (TField.garage d2) := hw _ (by simp)
  have hm : ∀ s g, matchLabelNatUnit "Garage Dist:".toList "cm".toList s = some g →
      ∃ L ∈ ["Garage Dist:".toList], L <+: s :=
    fun s g h => ⟨"Garage Dist:".toList, by simp, matchLabelNatUnit_label h⟩
  have hLs : ∀ L ∈ ["Garage Dist:".toList], L ≠ [] ∧ '|' ∉ L ∧ L.head? ≠ some ' ' := by
    decide
  have hsafe : ∀ f ∈ as, ∀ L ∈ ["Garage Dist:".toList],
      ¬ L <:+: f.render ∧ ∀ s', s' <:+ f.render → s' ++ [' '] ≠ L := by
    intro f hf L hL
    rw [List.mem_singleton] at hL
    subst hL
    have hfo := hmem f (List.mem_append_left _ hf)
    have hwf := hw f (List.mem_append_left _ hf)
    simp only [List.cons_append, List.nil_append, List.mem_cons, List.not_mem_nil,
      or_false] at hfo
    rcases hfo with rfl | rfl | rfl | rfl | rfl | rfl | rfl | rfl | rfl | rfl <;>
      exact safe_label_field _ _ hwf (by decide) (by decide)
        (by simp only [TField.litChunks]; decide) (Or.inl (by decide))
  rw [searchGarage, renderLine_append (by simp), find_match_skip_join hm hLs as _ hsafe]
  cases bs with
  | nil =>
    apply find_match_of_head
    have h := @matchLabelNatUnit_at "Garage Dist:".toList d2 'c' ['m'] [] hd0 hdig (by decide)
    rw [List.append_nil] at h
    exact h
  | cons g bs =>
    apply find_match_of_head
    rw [renderLine_cons (by simp)]
    have h := @matchLabelNatUnit_at "Garage Dist:".toList d2 'c' ['m']
      (fieldSep ++ renderLine (g :: bs)) hd0 hdig (by decide)
    rw [show (TField.garage d2).render =
        "Garage Dist: ".toList ++ d2 ++ " cm".toList from rfl,
      List.append_assoc, List.append_assoc, List.append_assoc]
    exact h

/-- The motion search on any well-formed arrangement returns the motion
field's token. -/
theorem searchMotion_of_perm {d1 d2 : List Char} {b1 b2 : Bool} {d3 d4 : List Char}
    {b3 b4 : Bool} {d5 f1 f2 : List Char} {fs : List TField}
    (hp : fs.Perm (canonicalFields d1 d2 b1 b2 d3 d4 b3 b4 d5 f1 f2))
    (hw : ∀ f ∈ fs, f.wf) :
    searchMotion (renderLine fs) =
      some (if b1 then "Motion!".toList else "No Motion".toList) := by
  have hp' := perm_extract [TField.ldr d1, TField.garage d2] (TField.motion b1)
    [TField.rain b2, TField.water d3, TField.soil d4,
     TField.pump b3, TField.flame b4, TField.smoke d5, TField.temp f1, TField.hum f2] hp
  obtain ⟨as, bs, rfl, hmem⟩ := split_of_perm_cons hp'
  have hm : ∀ s g, matchAlts ["Motion!".toList, "No Motion".toList] s = some g →
      ∃ L ∈ ["Motion!".toList, "No Motion".toList], L <+: s :=
    fun s g h => ⟨g, (matchAlts_label h).1, (matchAlts_label h).2⟩
  have hLs : ∀ L ∈ ["Motion!".toList, "No Motion".toList],
      L ≠ [] ∧ '|' ∉ L ∧ L.head? ≠ some ' ' := by decide
  have hsafe : ∀ f ∈ as, ∀ L ∈ ["Motion!".toList, "No Motion".toList],
      ¬ L <:+: f.render ∧ ∀ s', s' <:+ f.render → s' ++ [' '] ≠ L := by
    intro f hf L hL
    have hfo := hmem f (List.mem_append_left _ hf)
    have hwf := hw f (List.mem_append_left _ hf)
    simp only [List.cons_append, List.nil_append, List.mem_cons, List.not_mem_nil,
      or_false] at hfo
    simp only [List.mem_cons, List.not_mem_nil, or_false] at hL
    rcases hL with rfl | rfl <;>
      rcases hfo with rfl | rfl | rfl | rfl | rfl | rfl | rfl | rfl | rfl | rfl <;>
        exact safe_label_field _ _ hwf (by decide) (by decide)
          (by simp only [TField.litChunks]; decide) (Or.inl (by decide))
  rw [searchMotion, renderLine_append (by simp), find_match_skip_join hm hLs as _ hsafe]
  cases bs with
  | nil =>
    apply find_match_of_head
    cases b1 <;> rfl
  | cons g bs =>
    apply find_match_of_head
    rw [renderLine_cons (by simp)]
    cases b1 <;> rfl

/-- The rain search on any well-formed arrangement returns the rain
field's token. -/
theorem searchRain_of_perm {d1 d2 : List Char} {b1 b2 : Bool} {d3 d4 : List Char}
    {b3 b4 : Bool} {d5 f1 f2 : List Char} {fs : List TField}
    (hp : fs.Perm (canonicalFields d1 d2 b1 b2 d3 d4 b3 b4 d5 f1 f2))
    (hw : ∀ f ∈ fs, f.wf) :
    searchRain (renderLine fs) =
      some (if b2 then "Rain!".toList else "No Rain".toList) := by
  have hp' := perm_extract [TField.ldr d1, TField.garage d2, TField.motion b1]
    (TField.rain b2)
    [TField.water d3, TField.soil d4, TField.pump b3, TField.flame b4, TField.smoke d5,
     TField.temp f1, TField.hum f2] hp
  obtain ⟨as, bs, rfl, hmem⟩ := split_of_perm_cons hp'
  have hm : ∀ s g, matchAlts ["Rain!".toList, "No Rain".toList] s = some g →
      ∃ L ∈ ["Rain!".toList, "No Rain".toList], L <+: s :=
    fun s g h => ⟨g, (matchAlts_label h).1, (matchAlts_label h).2⟩
  have hLs : ∀ L ∈ ["Rain!".toList, "No Rain".toList],
      L ≠ [] ∧ '|' ∉ L ∧ L.head? ≠ some ' ' := by decide
  have hsafe : ∀ f ∈ as, ∀ L ∈ ["Rain!".toList, "No Rain".toList],
      ¬ L <:+: f.render ∧ ∀ s', s' <:+ f.render → s' ++ [' '] ≠ L := by
    intro f hf L hL
    have hfo := hmem f (List.mem_append_left _ hf)
    have hwf := hw f (List.mem_append_left _ hf)
    simp only [List.cons_append, List.nil_append, List.mem_cons, List.not_mem_nil,
      or_false] at hfo
    simp only [List.mem_cons, List.not_mem_nil, or_false] at hL
    rcases hL with rfl | rfl <;>
      rcases hfo with rfl | rfl | rfl | rfl | rfl | rfl | rfl | rfl | rfl | rfl <;>
        exact safe_label_field _ _ hwf (by decide) (by decide)
          (by simp only [TField.litChunks]; decide) (Or.inl (by decide))
  rw [searchRain, renderLine_append (by simp), find_match_skip_join hm hLs as _ hsafe]
  cases bs with
  | nil =>
    apply find_match_of_head
    cases b2 <;> rfl
  | cons g bs =>
    apply find_match_of_head
    rw [renderLine_cons (by simp)]
    cases b2 <;> rfl

/-- The water-level search on any well-formed arrangement returns the
water field's digit run. -/
theorem searchWater_of_perm {d1 d2 : List Char} {b1 b2 : Bool} {d3 d4 : List Char}
    {b3 b4 : Bool} {d5 f1 f2 : List Char} {fs : List TField}
    (hp : fs.Perm (canonicalFields d1 d2 b1 b2 d3 d4 b3 b4 d5 f1 f2))
    (hw : ∀ f ∈ fs, f.wf) :
    searchWater (renderLine fs) = some d3 := by
  have hp' := perm_extract
    [TField.ldr d1, TField.garage d2, TField.motion b1, TField.rain b2] (TField.water d3)
    [TField.soil d4, TField.pump b3, TField.flame b4, TField.smoke d5, TField.temp f1,
     TField.hum f2] hp
  obtain ⟨as, bs, rfl, hmem⟩ := split_of_perm_cons hp'
  obtain ⟨hd0, hdig⟩ : TField.wf (TField.water d3) := hw _ (by simp)
  have hm : ∀ s g, matchLabelNatUnit "Water Lvl:".toList "cm".toList s = some g →
      ∃ L ∈ ["Water Lvl:".toList], L <+: s :=
    fun s g h => ⟨"Water Lvl:".toList, by simp, matchLabelNatUnit_label h⟩
  have hLs : ∀ L ∈ ["Water Lvl:".toList], L ≠ [] ∧ '|' ∉ L ∧ L.head? ≠ some ' ' := by
    decide
  have hsafe : ∀ f ∈ as, ∀ L ∈ ["Water Lvl:".toList],
      ¬ L <:+: f.render ∧ ∀ s', s' <:+ f.render → s' ++ [' '] ≠ L := by
    intro f hf L hL
    rw [List.mem_singleton] at hL
    subst hL
    have hfo := hmem f (List.mem_append_left _ hf)
    have hwf := hw f (List.mem_append_left _ hf)
    simp only [List.cons_append, List.nil_append, List.mem_cons, List.not_mem_nil,
      or_false] at hfo
    rcases hfo with rfl | rfl | rfl | rfl | rfl | rfl | rfl | rfl | rfl | rfl <;>
      exact safe_label_field _ _ hwf (by decide) (by decide)
        (by simp only [TField.litChunks]; decide) (Or.inl (by decide))
  rw [searchWater, renderLine_append (by simp), find_match_skip_join hm hLs as _ hsafe]
  cases bs with
  | nil =>
    apply find_match_of_head
    have h := @matchLabelNatUnit_at "Water Lvl:".toList d3 'c' ['m'] [] hd0 hdig (by decide)
    rw [List.append_nil] at h
    exact h
  | cons g bs =>
    apply find_match_of_head
    rw [renderLine_cons (by simp)]
    have h := @matchLabelNatUnit_at "Water Lvl:".toList d3 'c' ['m']
      (fieldSep ++ renderLine (g :: bs)) hd0 hdig (by decide)
    rw [show (TField.water d3).render =
        "Water Lvl: ".toList ++ d3 ++ " cm".toList from rfl,
      List.append_assoc, List.append_assoc, List.append_assoc]
    exact h

/-- The soil search on any well-formed arrangement returns the soil
field's digit run. -/
theorem searchSoil_of_perm {d1 d2 : List Char} {b1 b2 : Bool} {d3 d4 : List Char}
    {b3 b4 : Bool} {d5 f1 f2 : List Char} {fs : List TField}
    (hp : fs.Perm (canonicalFields d1 d2 b1 b2 d3 d4 b3 b4 d5 f1 f2))
    (hw : ∀ f ∈ fs, f.wf) :
    searchSoil (renderLine fs) = some d4 := by
  have hp' := perm_extract
    [TField.ldr d1, TField.garage d2, TField.motion b1, TField.rain b2, TField.water d3]
    (TField.soil d4)
    [TField.pump b3, TField.flame b4, TField.smoke d5, TField.temp f1, TField.hum f2] hp
  obtain ⟨as, bs, rfl, hmem⟩ := split_of_perm_cons hp'
  obtain ⟨hd0, hdig⟩ : TField.wf (TField.soil d4) := hw _ (by simp)
  have hm : ∀ s g, matchLabelNat "Soil:".toList s = some g →
      ∃ L ∈ ["Soil:".toList], L <+: s :=
    fun s g h => ⟨"Soil:".toList, by simp, matchLabelNat_label h⟩
  have hLs : ∀ L ∈ ["Soil:".toList], L ≠ [] ∧ '|' ∉ L ∧ L.head? ≠ some ' ' := by decide
  have hsafe : ∀ f ∈ as, ∀ L ∈ ["Soil:".toList],
      ¬ L <:+: f.render ∧ ∀ s', s' <:+ f.render → s' ++ [' '] ≠ L := by
    intro f hf L hL
    rw [List.mem_singleton] at hL
    subst hL
    have hfo := hmem f (List.mem_append_left _ hf)
    have hwf := hw f (List.mem_append_left _ hf)
    simp only [List.cons_append, List.nil_append, List.mem_cons, List.not_mem_nil,
      or_false] at hfo
    rcases hfo with rfl | rfl | rfl | rfl | rfl | rfl | rfl | rfl | rfl | rfl <;>
      exact safe_label_field _ _ hwf (by decide) (by decide)
        (by simp only [TField.litChunks]; decide) (Or.inl (by decide))
  rw [searchSoil, renderLine_append (by simp), find_match_skip_join hm hLs as _ hsafe]
  cases bs with
  | nil =>
    apply find_match_of_head
    have h := @matchLabelNat_at "Soil:".toList d4 [] hd0 hdig
      (fun c hc => Option.noConfusion hc)
    rw [List.append_nil] at h
    exact h
  | cons g bs =>
    apply find_match_of_head
    rw [renderLine_cons (by simp)]
    have h := @matchLabelNat_at "Soil:".toList d4 (fieldSep ++ renderLine (g :: bs))
      hd0 hdig (fun c hc => by injection hc with h1; exact h1.symm)
    rw [show (TField.soil d4).render = "Soil: ".toList ++ d4 from rfl, List.append_assoc,
      List.append_assoc]
    exact h

/-- The pump search on any well-formed arrangement returns the pump
field's token. -/
theorem searchPump_of_perm {d1 d2 : List Char} {b1 b2 : Bool} {d3 d4 : List Char}
    {b3 b4 : Bool} {d5 f1 f2 : List Char} {fs : List TField}
    (hp : fs.Perm (canonicalFields d1 d2 b1 b2 d3 d4 b3 b4 d5 f1 f2))
    (hw : ∀ f ∈ fs, f.wf) :
    searchPump (renderLine fs) = some (if b3 then "ON".toList else "OFF".toList) := by
  have hp' := perm_extract
    [TField.ldr d1, TField.garage d2, TField.motion b1, TField.rain b2, TField.water d3,
     TField.soil d4] (TField.pump b3)
    [TField.flame b4, TField.smoke d5, TField.temp f1, TField.hum f2] hp
  obtain ⟨as, bs, rfl, hmem⟩ := split_of_perm_cons hp'
  have hm : ∀ s g, matchLabelAlts "Pump ".toList ["ON".toList, "OFF".toList] s = some g →
      ∃ L ∈ ["Pump ".toList], L <+: s :=
    fun s g h => ⟨"Pump ".toList, by simp, matchLabelAlts_label h⟩
  have hLs : ∀ L ∈ ["Pump ".toList], L ≠ [] ∧ '|' ∉ L ∧ L.head? ≠ some ' ' := by decide
  have hsafe : ∀ f ∈ as, ∀ L ∈ ["Pump ".toList],
      ¬ L <:+: f.render ∧ ∀ s', s' <:+ f.render → s' ++ [' '] ≠ L := by
    intro f hf L hL
    rw [List.mem_singleton] at hL
    subst hL
    have hfo := hmem f (List.mem_append_left _ hf)
    have hwf := hw f (List.mem_append_left _ hf)
    simp only [List.cons_append, List.nil_append, List.mem_cons, List.not_mem_nil,
      or_false] at hfo
    rcases hfo with rfl | rfl | rfl | rfl | rfl | rfl | rfl | rfl | rfl | rfl <;>
      exact safe_label_field _ _ hwf (by decide) (by decide)
        (by simp only [TField.litChunks]; decide) (Or.inr rfl)
  rw [searchPump, renderLine_append (by simp), find_match_skip_join hm hLs as _ hsafe]
  cases bs with
  | nil =>
    apply find_match_of_head
    cases b3 <;> rfl
  | cons g bs =>
    apply find_match_of_head
    rw [renderLine_cons (by simp)]
    cases b3 <;> rfl

/-- The flame search on any well-formed arrangement returns the flame
field's token. -/
theorem searchFlame_of_perm {d1 d2 : List Char} {b1 b2 : Bool} {d3 d4 : List Char}
    {b3 b4 : Bool} {d5 f1 f2 : List Char} {fs : List TField}
    (hp : fs.Perm (canonicalFields d1 d2 b1 b2 d3 d4 b3 b4 d5 f1 f2))
    (hw : ∀ f ∈ fs, f.wf) :
    searchFlame (renderLine fs) = some (if b4 then "YES".toList else "NO".toList) := by
  have hp' := perm_extract
    [TField.ldr d1, TField.garage d2, TField.motion b1, TField.rain b2, TField.water d3,
     TField.soil d4, TField.pump b3] (TField.flame b4)
    [TField.smoke d5, TField.temp f1, TField.hum f2] hp
  obtain ⟨as, bs, rfl, hmem⟩ := split_of_perm_cons hp'
  have hm : ∀ s g,
      matchLabelSpAlts "Flame:".toList ["YES".toList, "NO".toList] s = some g →
      ∃ L ∈ ["Flame:".toList], L <+: s :=
    fun s g h => ⟨"Flame:".toList, by simp, matchLabelSpAlts_label h⟩
  have hLs : ∀ L ∈ ["Flame:".toList], L ≠ [] ∧ '|' ∉ L ∧ L.head? ≠ some ' ' := by decide
  have hsafe : ∀ f ∈ as, ∀ L ∈ ["Flame:".toList],
      ¬ L <:+: f.render ∧ ∀ s', s' <:+ f.render → s' ++ [' '] ≠ L := by
    intro f hf L hL
    rw [List.mem_singleton] at hL
    subst hL
    have hfo := hmem f (List.mem_append_left _ hf)
    have hwf := hw f (List.mem_append_left _ hf)
    simp only [List.cons_append, List.nil_append, List.mem_cons, List.not_mem_nil,
      or_false] at hfo
    rcases hfo with rfl | rfl | rfl | rfl | rfl | rfl | rfl | rfl | rfl | rfl <;>
      exact safe_label_field _ _ hwf (by decide) (by decide)
        (by simp only [TField.litChunks]; decide) (Or.inl (by decide))
  rw [searchFlame, renderLine_append (by simp), find_match_skip_join hm hLs as _ hsafe]
  cases bs with
  | nil =>
    apply find_match_of_head
    cases b4 <;> rfl
  | cons g bs =>
    apply find_match_of_head
    rw [renderLine_cons (by simp)]
    cases b4 <;> rfl

/-- The smoke search on any well-formed arrangement returns the smoke
field's digit run. -/
theorem searchSmoke_of_perm {d1 d2 : List Char} {b1 b2 : Bool} {d3 d4 : List Char}
    {b3 b4 : Bool} {d5 f1 f2 : List Char} {fs : List TField}
    (hp : fs.Perm (canonicalFields d1 d2 b1 b2 d3 d4 b3 b4 d5 f1 f2))
    (hw : ∀ f ∈ fs, f.wf) :
    searchSmoke (renderLine fs) = some d5 := by
  have hp' := perm_extract
    [TField.ldr d1, TField.garage d2, TField.motion b1, TField.rain b2, TField.water d3,
     TField.soil d4, TField.pump b3, TField.flame b4] (TField.smoke d5)
    [TField.temp f1, TField.hum f2] hp
  obtain ⟨as, bs, rfl, hmem⟩ := split_of_perm_cons hp'
  obtain ⟨hd0, hdig⟩ : TField.wf (TField.smoke d5) := hw _ (by simp)
  have hm : ∀ s g, matchLabelNat "Smoke:".toList s = some g →
      ∃ L ∈ ["Smoke:".toList], L <+: s :=
    fun s g h => ⟨"Smoke:".toList, by simp, matchLabelNat_label h⟩
  have hLs : ∀ L ∈ ["Smoke:".toList], L ≠ [] ∧ '|' ∉ L ∧ L.head? ≠ some ' ' := by decide
  have hsafe : ∀ f ∈ as, ∀ L ∈ ["Smoke:".toList],
      ¬ L <:+: f.render ∧ ∀ s', s' <:+ f.render → s' ++ [' '] ≠ L := by
    intro f hf L hL
    rw [List.mem_singleton] at hL
    subst hL
    have hfo := hmem f (List.mem_append_left _ hf)
    have hwf := hw f (List.mem_append_left _ hf)
    simp only [List.cons_append, List.nil_append, List.mem_cons, List.not_mem_nil,
      or_false] at hfo
    rcases hfo with rfl | rfl | rfl | rfl | rfl | rfl | rfl | rfl | rfl | rfl <;>
      exact safe_label_field _ _ hwf (by decide) (by decide)
        (by simp only [TField.litChunks]; decide) (Or.inl (by decide))
  rw [searchSmoke, renderLine_append (by simp), find_match_skip_join hm hLs as _ hsafe]
  cases bs with
  | nil =>
    apply find_match_of_head
    have h := @matchLabelNat_at "Smoke:".toList d5 [] hd0 hdig
      (fun c hc => Option.noConfusion hc)
    rw [List.append_nil] at h
    exact h
  | cons g bs =>
    apply find_match_of_head
    rw [renderLine_cons (by simp)]
    have h := @matchLabelNat_at "Smoke:".toList d5 (fieldSep ++ renderLine (g :: bs))
      hd0 hdig (fun c hc => by injection hc with h1; exact h1.symm)
    rw [show (TField.smoke d5).render = "Smoke: ".toList ++ d5 from rfl, List.append_assoc,
      List.append_assoc]
    exact h

/-- The temperature search on any well-formed arrangement returns the
temperature field's float run. -/
theorem searchTemp_of_perm {d1 d2 : List Char} {b1 b2 : Bool} {d3 d4 : List Char}
    {b3 b4 : Bool} {d5 f1 f2 : List Char} {fs : List TField}
    (hp : fs.Perm (canonicalFields d1 d2 b1 b2 d3 d4 b3 b4 d5 f1 f2))
    (hw : ∀ f ∈ fs, f.wf) :
    searchTemp (renderLine fs) = some f1 := by
  have hp' := perm_extract
    [TField.ldr d1, TField.garage d2, TField.motion b1, TField.rain b2, TField.water d3,
     TField.soil d4, TField.pump b3, TField.flame b4, TField.smoke d5] (TField.temp f1)
    [TField.hum f2] hp
  obtain ⟨as, bs, rfl, hmem⟩ := split_of_perm_cons hp'
  obtain ⟨hf0, hfd⟩ : TField.wf (TField.temp f1) := hw _ (by simp)
  have hm : ∀ s g, matchLabelFloatUnit "Temp:".toList "C".toList s = some g →
      ∃ L ∈ ["Temp:".toList], L <+: s :=
    fun s g h => ⟨"Temp:".toList, by simp, matchLabelFloatUnit_label h⟩
  have hLs : ∀ L ∈ ["Temp:".toList], L ≠ [] ∧ '|' ∉ L ∧ L.head? ≠ some ' ' := by decide
  have hsafe : ∀ f ∈ as, ∀ L ∈ ["Temp:".toList],
      ¬ L <:+: f.render ∧ ∀ s', s' <:+ f.render → s' ++ [' '] ≠ L := by
    intro f hf L hL
    rw [List.mem_singleton] at hL
    subst hL
    have hfo := hmem f (List.mem_append_left _ hf)
    have hwf := hw f (List.mem_append_left _ hf)
    simp only [List.cons_append, List.nil_append, List.mem_cons, List.not_mem_nil,
      or_false] at hfo
    rcases hfo with rfl | rfl | rfl | rfl | rfl | rfl | rfl | rfl | rfl | rfl <;>
      exact safe_label_field _ _ hwf (by decide) (by decide)
        (by simp only [TField.litChunks]; decide) (Or.inl (by decide))
  rw [searchTemp, renderLine_append (by simp), find_match_skip_join hm hLs as _ hsafe]
  cases bs with
  | nil =>
    apply find_match_of_head
    have h := @matchLabelFloatUnit_at "Temp:".toList f1 'C' [] [] hf0 hfd (by decide)
    rw [List.append_nil] at h
    exact h
  | cons g bs =>
    apply find_match_of_head
    rw [renderLine_cons (by simp)]
    have h := @matchLabelFloatUnit_at "Temp:".toList f1 'C' []
      (fieldSep ++ renderLine (g :: bs)) hf0 hfd (by decide)
    rw [show (TField.temp f1).render = "Temp: ".toList ++ f1 ++ " C".toList from rfl,
      List.append_assoc, List.append_assoc, List.append_assoc]
    exact h

/-- The humidity search on any well-formed arrangement returns the
humidity field's float run. -/
theorem searchHum_of_perm {d1 d2 : List Char} {b1 b2 : Bool} {d3 d4 : List Char}
    {b3 b4 : Bool} {d5 f1 f2 : List Char} {fs : List TField}
    (hp : fs.Perm (canonicalFields d1 d2 b1 b2 d3 d4 b3 b4 d5 f1 f2))
    (hw : ∀ f ∈ fs, f.wf) :
    searchHum (renderLine fs) = some f2 := by
  have hp' := perm_extract
    [TField.ldr d1, TField.garage d2, TField.motion b1, TField.rain b2, TField.water d3,
     TField.soil d4, TField.pump b3, TField.flame b4, TField.smoke d5, TField.temp f1]
    (TField.hum f2) [] hp
  obtain ⟨as, bs, rfl, hmem⟩ := split_of_perm_cons hp'
  obtain ⟨hf0, hfd⟩ : TField.wf (TField.hum f2) := hw _ (by simp)
  have hm : ∀ s g, matchLabelFloatTight "Hum:".toList "%".toList s = some g →
      ∃ L ∈ ["Hum:".toList], L <+: s :=
    fun s g h => ⟨"Hum:".toList, by simp, matchLabelFloatTight_label h⟩
  have hLs : ∀ L ∈ ["Hum:".toList], L ≠ [] ∧ '|' ∉ L ∧ L.head? ≠ some ' ' := by decide
  have hsafe : ∀ f ∈ as, ∀ L ∈ ["Hum:".toList],
      ¬ L <:+: f.render ∧ ∀ s', s' <:+ f.render → s' ++ [' '] ≠ L := by
    intro f hf L hL
    rw [List.mem_singleton] at hL
    subst hL
    have hfo := hmem f (List.mem_append_left _ hf)
    have hwf := hw f (List.mem_append_left _ hf)
    simp only [List.cons_append, List.nil_append, List.mem_cons, List.not_mem_nil,
      or_false] at hfo
    rcases hfo with rfl | rfl | rfl | rfl | rfl | rfl | rfl | rfl | rfl | rfl <;>
      exact safe_label_field _ _ hwf (by decide) (by decide)
        (by simp only [TField.litChunks]; decide) (Or.inl (by decide))
  rw [searchHum, renderLine_append (by simp), find_match_skip_join hm hLs as _ hsafe]
  cases bs with
  | nil =>
    apply find_match_of_head
    have h := @matchLabelFloatTight_at "Hum:".toList f2 '%' [] [] hf0 hfd (by decide)
    rw [List.append_nil] at h
    exact h
  | cons g bs =>
    apply find_match_of_head
    rw [renderLine_cons (by simp)]
    have h := @matchLabelFloatTight_at "Hum:".toList f2 '%' []
      (fieldSep ++ renderLine (g :: bs)) hf0 hfd (by decide)
    rw [show (TField.hum f2).render = "Hum: ".toList ++ f2 ++ "%".toList from rfl,
      List.append_assoc, List.append_assoc, List.append_assoc]
    exact h

/-- C9.  Decoding is order-independent: for every well-formed telemetry
line — the eleven field substrings, with arbitrary digit / `[\d.]` value
runs, joined by the separator — and every permutation of its fields,
decoding the permuted line yields exactly the same result as decoding the
canonically ordered line (the same snapshot when decoding succeeds, and
the same `none` when a value run fails float conversion or range
validation). -/
theorem c9_parse_order_independent {d1 d2 : List Char} {b1 b2 : Bool} {d3 d4 : List Char}
    {b3 b4 : Bool} {d5 f1 f2 : List Char} {fs : List TField}
    (hp : fs.Perm (canonicalFields d1 d2 b1 b2 d3 d4 b3 b4 d5 f1 f2))
    (hw : ∀ f ∈ fs, f.wf) :
    SerialHardwareController.parse_telemetry (renderLine fs) =
      SerialHardwareController.parse_telemetry
        (renderLine (canonicalFields d1 d2 b1 b2 d3 d4 b3 b4 d5 f1 f2)) := by
  have hwc : ∀ f ∈ canonicalFields d1 d2 b1 b2 d3 d4 b3 b4 d5 f1 f2, f.wf :=
    fun f hf => hw f (hp.mem_iff.mpr hf)
  have hrefl := List.Perm.refl (canonicalFields d1 d2 b1 b2 d3 d4 b3 b4 d5 f1 f2)
  rw [SerialHardwareController.parse_telemetry, SerialHardwareController.parse_telemetry,
    searchLDR_of_perm hp hw, searchLDR_of_perm hrefl hwc,
    searchGarage_of_perm hp hw, searchGarage_of_perm hrefl hwc,
    searchMotion_of_perm hp hw, searchMotion_of_perm hrefl hwc,
    searchRain_of_perm hp hw, searchRain_of_perm hrefl hwc,
    searchWater_of_perm hp hw, searchWater_of_perm hrefl hwc,
    searchSoil_of_perm hp hw, searchSoil_of_perm hrefl hwc,
    searchPump_of_perm hp hw, searchPump_of_perm hrefl hwc,
    searchFlame_of_perm hp hw, searchFlame_of_perm hrefl hwc,
    searchSmoke_of_perm hp hw, searchSmoke_of_perm hrefl hwc,
    searchTemp_of_perm hp hw, searchTemp_of_perm hrefl hwc,
    searchHum_of_perm hp hw, searchHum_of_perm hrefl hwc]

/-- Witness for C9: a fully reversed arrangement of a concrete line
decodes identically to the canonical arrangement. -/
theorem c9_parse_order_independent_witness :
    SerialHardwareController.parse_telemetry
      (renderLine
        [TField.hum "45.2".toList, TField.temp "24.5".toList, TField.smoke "30".toList,
         TField.flame false, TField.pump false, TField.soil "950".toList,
         TField.water "3".toList, TField.rain false, TField.motion true,
         TField.garage "10".toList, TField.ldr "600".toList]) =
    SerialHardwareController.parse_telemetry
      (renderLine
        (canonicalFields "600".toList "10".toList true false "3".toList "950".toList
          false false "30".toList "24.5".toList "45.2".toList)) :=
  c9_parse_order_independent (by decide) (by decide)

end SmartHome
